import Mathlib

/-!
Verification of the Yandex-Music track-metadata extraction pipeline
(`src/utils`, `src/parsers`, `src/services` of the repository) against its
natural-language specification.  Python code is shallowly embedded:
pure functions become Lean functions, Python exceptions become `Except`,
`None` becomes `Option`, floats are idealised as rationals, and stateful
components (cache, HTTP retry loop, orchestrator) are modelled by explicit
state passing with instrumentation traces for side-effect claims
(sleep calls, fetch calls, strategy invocations).
-/

set_option autoImplicit false

namespace YM

/-! ## Python string helpers -/

/-- Characters stripped by Python `str.strip()` with no argument
(`str.isspace`: ASCII whitespace, the C0 separator controls, NEL and the
Unicode space/line/paragraph separators). -/
def pySpaceChars : List Char :=
  [' ', '\t', '\n', '\r', '\x0b', '\x0c',
   '\x1c', '\x1d', '\x1e', '\x1f', '\x85', '\u00a0', '\u1680',
   '\u2000', '\u2001', '\u2002', '\u2003', '\u2004', '\u2005', '\u2006',
   '\u2007', '\u2008', '\u2009', '\u200a', '\u2028', '\u2029', '\u202f',
   '\u205f', '\u3000']

/-- Whether Python `str.strip()` removes this character. -/
def pyIsSpace (c : Char) : Bool := pySpaceChars.contains c

/-- Python `s.strip()` on a character list: drop whitespace from both ends. -/
def pyStripList (l : List Char) : List Char :=
  ((l.dropWhile pyIsSpace).reverse.dropWhile pyIsSpace).reverse

/-- Python `s.strip()`. -/
def pyStrip (s : String) : String := ⟨pyStripList s.data⟩

/-- Python `needle in haystack` on strings (substring containment),
over character lists. -/
def listContainsSub (needle : List Char) : List Char → Bool
  | [] => needle.isEmpty
  | l@(_ :: rest) => needle.isPrefixOf l || listContainsSub needle rest

/-- Python `needle in haystack` on strings. -/
def pyInStr (needle hay : String) : Bool := listContainsSub needle.data hay.data

/-! ## Data model: `src/models/track.py` -/

/-- The `TrackInfo` dataclass of `src/models/track.py`. -/
structure TrackInfo where
  name : String
  artist : String
  duration : String
  album : Option String := none
  url : Option String := none
  deriving Repr, DecidableEq

/-! ## Python/JSON values (results of `json.loads`) -/

/-- A Python value as produced by `json.loads`: `None`, `bool`, numbers
(idealised as rationals), `str`, `list`, `dict`.  A missing-key default of
`None` coincides with the JSON `null` constructor. -/
inductive PyJson where
  | null
  | bool (b : Bool)
  | num (q : ℚ)
  | str (s : String)
  | arr (xs : List PyJson)
  | obj (fields : List (String × PyJson))
  deriving Repr

/-- Python truthiness of a `json.loads` value. -/
def PyJson.truthy : PyJson → Bool
  | .null => false
  | .bool b => b
  | .num q => if q = 0 then false else true
  | .str s => if s = "" then false else true
  | .arr xs => !xs.isEmpty
  | .obj fs => !fs.isEmpty

/-- Python `dict` lookup for a dict built by `json.loads` from an
association list: with duplicate keys the last binding wins. -/
def objGet (fields : List (String × PyJson)) (key : String) : Option PyJson :=
  (fields.reverse.find? (fun kv => kv.1 == key)).map (fun kv => kv.2)

/-- The Python exceptions relevant to the modelled fragment. -/
inductive PyExc where
  | attributeError
  deriving Repr, DecidableEq

/-- Python `v.strip()` where `v` may be any value: succeeds only on
strings, otherwise raises `AttributeError`. -/
def jsonStrip : PyJson → Except PyExc String
  | .str s => .ok (pyStrip s)
  | _ => .error .attributeError

/-! ## `src/utils/artists.py` -/

/-- The unknown-artist sentinel of `src/utils/artists.py`. -/
def unknownArtist : String := "Неизвестный артист"

/-- Python `sep.join(xs)`. -/
def pyJoin (sep : String) : List String → String
  | [] => ""
  | [x] => x
  | x :: rest => x ++ sep ++ pyJoin sep rest

/-- The collection loop of `extract_artists` over a list value: keep the
stripped `name` field of each dict element that has one, skipping other
elements and empty names; a `.strip()` on a non-string raises. -/
def collectNames : List PyJson → Except PyExc (List String)
  | [] => .ok []
  | a :: rest =>
    match a with
    | .obj fs =>
      match objGet fs "name" with
      | some v => do
        let n ← jsonStrip v
        let ns ← collectNames rest
        pure (if n = "" then ns else n :: ns)
      | none => collectNames rest
    | _ => collectNames rest

/-- The function `extract_artists` of `src/utils/artists.py`.  The input is
the `byArtist` field of the JSON-LD data (`PyJson.null` doubles as the
Python `None` returned by `.get` for a missing key). -/
def extract_artists (byArtist : PyJson) : Except PyExc String :=
  if byArtist.truthy then
    match byArtist with
    | .obj fs => do
      let name ← jsonStrip ((objGet fs "name").getD (.str ""))
      pure (if name = "" then unknownArtist else name)
    | .arr xs => do
      let names ← collectNames xs
      match names with
      | [] => pure unknownArtist
      | [n] => pure n
      | [a, b] => pure (a ++ " feat. " ++ b)
      | a :: rest => pure (a ++ " feat. " ++ pyJoin ", " rest)
    | .str s => pure (if pyStrip s = "" then unknownArtist else pyStrip s)
    | _ => pure unknownArtist
  else
    .ok unknownArtist

/-! ## `src/utils/formatters.py`: `parse_iso_duration`

The repository converts ISO-8601 durations with `isodate.parse_duration`.
We model the primary format that library accepts — its
`ISO8601_PERIOD_REGEX`, `[+-]?P(?!\b)` followed by optional
`<number>Y <number>M <number>W <number>D` components and an optional
`T <number>H <number>M <number>S` part, each number `[0-9]+([,.][0-9]+)?`,
where `$` also matches before one final newline.  Numbers are idealised as
rationals (isodate feeds floats to `timedelta`; sub-microsecond rounding is
not modelled).  `total_seconds()` of an `isodate.Duration` delegates to its
embedded `timedelta`, so years and months never contribute seconds.
isodate's fallback for strings that start with `"P"` but fail the regex
(the alternative complete-datetime forms `PYYYY-MM-DDThh:mm:ss` etc.) is
outside the modelled fragment; theorems about parse failure therefore
restrict to inputs on which that fallback provably raises (no `"P"` prefix,
or not exactly one `"T"` after it), where the library returns an error that
`parse_iso_duration` catches, yielding `None`. -/

/-- A Python regex word character (ASCII fragment of `\w`). -/
def isWordChar (c : Char) : Bool := c.isAlphanum || c = '_'

/-- Numeric value of a digit run. -/
def digitsVal (l : List Char) : ℕ := l.foldl (fun n c => 10 * n + (c.toNat - 48)) 0

/-- A nonnegative decimal number as an unreduced fraction
`(numerator, denominator)` with a power-of-ten denominator.  This
represents the regex number `[0-9]+([,.][0-9]+)?` exactly (isodate feeds
floats to `timedelta`; sub-microsecond floating-point rounding is not
modelled). -/
abbrev DecFrac := ℕ × ℕ

/-- Exact addition of decimal fractions (no normalisation). -/
def fracAdd (a b : DecFrac) : DecFrac := (a.1 * b.2 + b.1 * a.2, a.2 * b.2)

/-- Multiplication of a decimal fraction by a natural constant. -/
def fracScale (k : ℕ) (a : DecFrac) : DecFrac := (k * a.1, a.2)

/-- Read `[0-9]+([,.][0-9]+)?` as a decimal fraction; `none` when no
leading digit.  A separator not followed by digits is left unconsumed
(the optional fraction group of the regex simply does not participate). -/
def readNum (l : List Char) : Option (DecFrac × List Char) :=
  let ds := l.takeWhile Char.isDigit
  let rest := l.dropWhile Char.isDigit
  if ds.isEmpty then none
  else
    match rest with
    | c :: rest2 =>
      if c = ',' ∨ c = '.' then
        let fs := rest2.takeWhile Char.isDigit
        if fs.isEmpty then some ((digitsVal ds, 1), rest)
        else some ((digitsVal ds * 10 ^ fs.length + digitsVal fs, 10 ^ fs.length),
          rest2.dropWhile Char.isDigit)
      else some ((digitsVal ds, 1), rest)
    | [] => some ((digitsVal ds, 1), [])

/-- The named groups of isodate's period regex. -/
structure PeriodParts where
  sign : Bool := false
  years : DecFrac := (0, 1)
  months : DecFrac := (0, 1)
  weeks : DecFrac := (0, 1)
  days : DecFrac := (0, 1)
  hours : DecFrac := (0, 1)
  minutes : DecFrac := (0, 1)
  seconds : DecFrac := (0, 1)
  deriving Repr, DecidableEq

/-- Assign a parsed number to the field selected by its designator letter
(`M` is months in the date part and minutes in the time part). -/
def setItem (p : PeriodParts) (timePart : Bool) (c : Char) (v : DecFrac) : PeriodParts :=
  if timePart then
    if c = 'H' then { p with hours := v }
    else if c = 'M' then { p with minutes := v }
    else { p with seconds := v }
  else
    if c = 'Y' then { p with years := v }
    else if c = 'M' then { p with months := v }
    else if c = 'W' then { p with weeks := v }
    else { p with days := v }

/-- Run the ordered optional `number+designator` groups of the period
regex.  Each group consumes a number and its designator letter or is
skipped; unconsumable input is left for the final end-anchor check. -/
def parseItems (timePart : Bool) : List Char → PeriodParts → List Char →
    PeriodParts × List Char
  | [], p, l => (p, l)
  | a :: restAllowed, p, l =>
    match readNum l with
    | none => (p, l)
    | some (v, r) =>
      match r with
      | c :: r2 =>
        if c = a then parseItems timePart restAllowed (setItem p timePart a v) r2
        else parseItems timePart restAllowed p l
      | [] => (p, l)

/-- Matching of `P(?!\b)...` after the optional sign.  The negative
lookahead `(?!\b)` demands a word character right after `P`. -/
def matchPeriodBody (neg : Bool) (l : List Char) : Option PeriodParts :=
  match l with
  | 'P' :: rest =>
    match rest with
    | [] => none
    | c :: _ =>
      if isWordChar c then
        let (p1, r1) := parseItems false ['Y', 'M', 'W', 'D'] {} rest
        let (p2, r2) :=
          match r1 with
          | 'T' :: r => parseItems true ['H', 'M', 'S'] p1 r
          | _ => (p1, r1)
        if r2 = [] ∨ r2 = ['\n'] then some { p2 with sign := neg } else none
      else none
  | _ => none

/-- Matching of isodate's `ISO8601_PERIOD_REGEX` against a whole string
(with Python's end-anchor tolerance for one trailing newline). -/
def matchPeriod (l : List Char) : Option PeriodParts :=
  match l with
  | '+' :: rest => matchPeriodBody false rest
  | '-' :: rest => matchPeriodBody true rest
  | _ => matchPeriodBody false l

/-- Python `int(duration.total_seconds())`: the embedded `timedelta`
holds weeks/days/hours/minutes/seconds (years and months of an
`isodate.Duration` are not part of it); `int()` truncates toward zero,
which for the nonnegative magnitude is natural floor division, negated
when the sign group matched `-`. -/
def periodTotalSecondsInt (p : PeriodParts) : ℤ :=
  let mag := fracAdd (fracScale 604800 p.weeks) (fracAdd (fracScale 86400 p.days)
    (fracAdd (fracScale 3600 p.hours) (fracAdd (fracScale 60 p.minutes) p.seconds)))
  let t : ℕ := mag.1 / mag.2
  if p.sign then -(t : ℤ) else (t : ℤ)

/-- Python `f"{seconds:02d}"` for the second count (always in `0..59`). -/
def zeroPad2 (n : ℤ) : String :=
  if n < 10 then "0" ++ toString n else toString n

/-- The function `parse_iso_duration` of `src/utils/formatters.py`:
parse with isodate, truncate `total_seconds()` to an integer, split into
minutes and seconds by Python floor-division/modulo, render `M:SS`;
any parse error is caught and yields `None`. -/
def parse_iso_duration (s : String) : Option String :=
  match matchPeriod s.data with
  | none => none
  | some p =>
    let total := periodTotalSecondsInt p
    some (toString (Int.fdiv total 60) ++ ":" ++ zeroPad2 (Int.fmod total 60))

/-! ## Page abstraction for the extraction strategies

The three parsers of `src/parsers` read a `BeautifulSoup` document.  The
relevant queries are abstracted into a `Page`: the (decoded) JSON-LD
script, the Open-Graph meta tags and the CSS-selector results.  Fixed,
well-formed CSS selectors and HTML parsing itself are assumed (the
`except` branches of the selector helpers are unreachable for the fixed
selector lists, so they are not modelled). -/

/-- Abstraction of the parsed HTML page as the strategy parsers query it.
For each Open-Graph meta tag, tag presence with a missing `content`
attribute behaves exactly like an absent tag everywhere except in the
`og:title` applicability probe, so `ogTitleTag` keeps both levels while
the other tags are collapsed to their effective content. -/
structure Page where
  /-- Track page URL (second argument of every `parse`). -/
  url : String
  /-- The first `<script type="application/ld+json">`: `none` when absent,
  `some none` when its text is missing, falsy, or not valid JSON,
  `some (some j)` when it decodes to `j`. -/
  jsonLdScript : Option (Option PyJson)
  /-- The first `og:title` meta tag: presence, and its `content` attribute. -/
  ogTitleTag : Option (Option String)
  /-- Effective `content` of the first `og:audio:artist` meta tag. -/
  ogAudioArtist : Option String
  /-- Effective `content` of the first `music:duration` meta tag. -/
  musicDuration : Option String
  /-- Effective `content` of the first `music:album` meta tag. -/
  musicAlbum : Option String
  /-- CSS selection: the `get_text(strip=True)` texts of the elements
  matched by a selector string, in document order. -/
  select : String → List String

/-! ## Python `int(str)` (used by the Open-Graph duration tag) -/

/-- Digit run with optional single underscores between digits, as Python
`int()` accepts (ASCII fragment). -/
def digitsU : List Char → Bool
  | [] => false
  | [c] => c.isDigit
  | c :: '_' :: rest => c.isDigit && digitsU rest
  | c :: rest => c.isDigit && digitsU rest

/-- Python `int(s)` for a decimal string: surrounding whitespace, an
optional sign, digits with optional single underscores; `none` models
`ValueError`. -/
def pyIntOfString (s : String) : Option ℤ :=
  let l := pyStripList s.data
  match l with
  | '+' :: rest => if digitsU rest then
      some ((digitsVal (rest.filter (fun c => c ≠ '_')) : ℤ)) else none
  | '-' :: rest => if digitsU rest then
      some (-(digitsVal (rest.filter (fun c => c ≠ '_')) : ℤ)) else none
  | _ => if digitsU l then
      some ((digitsVal (l.filter (fun c => c ≠ '_')) : ℤ)) else none

/-! ## `src/parsers/open_graph.py` -/

/-- First-occurrence split of a character list at a separator,
Python `s.split(sep, 1)` when `sep in s`. -/
def splitOnceList (sep : List Char) : List Char → Option (List Char × List Char)
  | [] => if sep.isEmpty then some ([], []) else none
  | l@(c :: rest) =>
    if sep.isPrefixOf l then some ([], l.drop sep.length)
    else
      match splitOnceList sep rest with
      | some (a, b) => some (c :: a, b)
      | none => none

/-- Python `title.split(sep, 1)` with stripping of both parts. -/
def splitOnceStrip (sep : String) (title : String) : Option (String × String) :=
  (splitOnceList sep.data title.data).map
    (fun ab => (pyStrip ⟨ab.1⟩, pyStrip ⟨ab.2⟩))

/-- `OpenGraphParser._parse_title`: split on the first of the separators
`" — "`, `" - "`, `" – "`, in that order; no separator means the whole
title is the track name and the artist falls back to the sentinel. -/
def og_parse_title (title : String) : String × String :=
  match splitOnceStrip " — " title with
  | some p => p
  | none =>
    match splitOnceStrip " - " title with
    | some p => p
    | none =>
      match splitOnceStrip " – " title with
      | some p => p
      | none => (title, unknownArtist)

/-- `OpenGraphParser._parse_duration`: seconds from the `music:duration`
tag rendered as `M:SS` by Python floor division, the dash sentinel when
the tag or its content is missing, empty, or non-numeric. -/
def og_parse_duration (pg : Page) : String :=
  match pg.musicDuration with
  | none => "—"
  | some c =>
    if c = "" then "—"
    else
      match pyIntOfString c with
      | none => "—"
      | some secs => toString (Int.fdiv secs 60) ++ ":" ++ zeroPad2 (Int.fmod secs 60)

/-- The effective artist of `OpenGraphParser.parse`: the split-derived
artist, overridden by a present, non-empty `og:audio:artist` tag. -/
def og_artist_value (pg : Page) (artist0 : String) : String :=
  match pg.ogAudioArtist with
  | some ac => if ac = "" then artist0 else pyStrip ac
  | none => artist0

/-- The album of `OpenGraphParser.parse` from the `music:album` tag. -/
def og_album_value (pg : Page) : Option String :=
  match pg.musicAlbum with
  | some al => if al = "" then none else some (pyStrip al)
  | none => none

/-- `OpenGraphParser.parse`: requires a usable `og:title`, splits it into
track and artist, lets `og:audio:artist` override the artist, reads
duration and album tags, declines without a track name, and falls back to
the unknown-artist sentinel for an empty artist. -/
def open_graph_parse (pg : Page) : Option TrackInfo :=
  match pg.ogTitleTag with
  | none => none
  | some none => none
  | some (some c) =>
    if c = "" then none
    else
      if (og_parse_title (pyStrip c)).1 = "" then none
      else
        some { name := (og_parse_title (pyStrip c)).1,
               artist :=
                 if og_artist_value pg (og_parse_title (pyStrip c)).2 = "" then unknownArtist
                 else og_artist_value pg (og_parse_title (pyStrip c)).2,
               duration := og_parse_duration pg,
               album := og_album_value pg,
               url := some pg.url }

/-! ## `src/parsers/html_css.py` -/

/-- The `track_name` selector list of `HtmlCssParser.SELECTORS`. -/
def trackNameSelectors : List String :=
  ["h1.track__title", ".d-track__title", "[data-testid=\"track-title\"]",
   ".track-heading__title", "h1.page-track__title"]

/-- The `artist` selector list of `HtmlCssParser.SELECTORS`. -/
def artistSelectors : List String :=
  [".d-track__artists a", ".track__artists a", "[data-testid=\"track-artist\"]",
   ".page-track__artists a", "a.deco-link.track__artists-item"]

/-- The `duration` selector list of `HtmlCssParser.SELECTORS`. -/
def durationSelectors : List String :=
  [".d-track__duration", ".track__duration", "[data-testid=\"track-duration\"]",
   ".page-track__duration"]

/-- The `album` selector list of `HtmlCssParser.SELECTORS`. -/
def albumSelectors : List String :=
  [".d-track__album a", ".track__album a", "[data-testid=\"track-album\"]"]

/-- `HtmlCssParser._extract_by_selectors`: the first selector whose first
matched element has non-empty text. -/
def html_extract_by_selectors (pg : Page) : List String → Option String
  | [] => none
  | s :: rest =>
    match (pg.select s).head? with
    | some t => if t = "" then html_extract_by_selectors pg rest else some t
    | none => html_extract_by_selectors pg rest

/-- `HtmlCssParser._extract_all_by_selectors`: all elements of the first
selector that matches anything. -/
def html_extract_all_by_selectors (pg : Page) : List String → List String
  | [] => []
  | s :: rest =>
    let es := pg.select s
    if es.isEmpty then html_extract_all_by_selectors pg rest else es

/-- `HtmlCssParser.parse`: declines without a track name; joins all
matched artist texts with `", "`, with the unknown-artist sentinel when no
element matched; duration and album from their selector lists. -/
def html_css_parse (pg : Page) : Option TrackInfo :=
  match html_extract_by_selectors pg trackNameSelectors with
  | none => none
  | some track_name =>
    let artistTexts := html_extract_all_by_selectors pg artistSelectors
    let artist := if artistTexts.isEmpty then unknownArtist else pyJoin ", " artistTexts
    let duration := (html_extract_by_selectors pg durationSelectors).getD "—"
    let album := html_extract_by_selectors pg albumSelectors
    some { name := track_name, artist := artist, duration := duration,
           album := album, url := some pg.url }

/-! ## `src/parsers/json_ld.py` -/

/-- The body of `JsonLdParser.parse` after JSON decoding: requires a dict
of `@type` `"MusicRecording"` with a truthy string `name`; artist via
`extract_artists` (an exception there is caught, declining); duration via
`parse_iso_duration` with the dash sentinel (a non-string `duration`
value makes isodate raise `TypeError`, declining); optional album name
from a dict `inAlbum` (a non-string album name, which Python would carry
through untyped, is collapsed to `none`; no claim depends on it). -/
def json_ld_parse_data (url : String) (data : PyJson) : Option TrackInfo :=
  match data with
  | .obj fs =>
    match objGet fs "@type" with
    | some (.str ty) =>
      if ty = "MusicRecording" then
      match objGet fs "name" with
      | some (.str s) =>
        if s = "" then none
        else
          match extract_artists ((objGet fs "byArtist").getD .null) with
          | .error _ => none
          | .ok artist =>
            match (objGet fs "duration").getD (.str "") with
            | .str d =>
              let duration := (parse_iso_duration d).getD "—"
              let album :=
                match objGet fs "inAlbum" with
                | some (.obj afs) =>
                  match objGet afs "name" with
                  | some (.str a) => some a
                  | _ => none
                | _ => none
              some { name := pyStrip s, artist := artist, duration := duration,
                     album := album, url := some url }
            | _ => none
      | _ => none
      else none
    | _ => none
  | _ => none

/-- `JsonLdParser.parse`: decline when the script tag is missing, its
text is falsy, or the JSON is invalid; otherwise parse the decoded data.
A non-string truthy `name` also declines (Python reaches
`track_name.strip()` and the raised `AttributeError` is caught). -/
def json_ld_parse (pg : Page) : Option TrackInfo :=
  match pg.jsonLdScript with
  | some (some data) => json_ld_parse_data pg.url data
  | _ => none

/-- A page whose only content is one empty-texted artist element and a
track title, exercising the HTML/CSS strategy. -/
def c7Page : Page :=
  { url := "https://music.yandex.ru/album/1/track/2",
    jsonLdScript := none, ogTitleTag := none, ogAudioArtist := none,
    musicDuration := none, musicAlbum := none,
    select := fun s =>
      if s = "h1.track__title" then ["Song"]
      else if s = ".d-track__artists a" then [""] else [] }

/-- A page with a complete JSON-LD MusicRecording block. -/
def c7JsonPage : Page :=
  { url := "https://music.yandex.ru/album/1/track/2",
    jsonLdScript := some (some (.obj
      [("@type", .str "MusicRecording"), ("name", .str "Song"),
       ("byArtist", .obj [("name", .str "Кино")]),
       ("duration", .str "PT3M45S")])),
    ogTitleTag := none, ogAudioArtist := none,
    musicDuration := none, musicAlbum := none,
    select := fun _ => [] }

/-! ## `src/parsers/cascade.py`

`CascadeParser` works over any list of objects satisfying the `BaseParser`
interface (`name`, `priority`, `can_parse`, `parse`); the strategy type is
kept abstract over the page type, an `Except` result modelling an
unexpected exception escaping the strategy (the `except` clause of the
cascade loop treats it as a decline). -/

/-- The `BaseParser` interface of `src/parsers/base.py`. -/
structure Strategy (P : Type) where
  name : String
  priority : ℤ
  can_parse : P → Except Unit Bool
  parse : P → Except Unit (Option TrackInfo)

/-- Stable insertion of a strategy after all strategies of lower or equal
priority. -/
def insertStrat {P : Type} (x : Strategy P) : List (Strategy P) → List (Strategy P)
  | [] => [x]
  | e :: rest =>
    if e.priority < x.priority then e :: insertStrat x rest else x :: e :: rest

/-- The `sorted(parsers, key=lambda p: p.priority)` of
`CascadeParser.__init__`: a stable sort produces the same list as
Python's stable `sorted` for the same key. -/
def sortStrats {P : Type} : List (Strategy P) → List (Strategy P)
  | [] => []
  | x :: rest => insertStrat x (sortStrats rest)

/-- The cascade loop of `CascadeParser.parse`, instrumented: besides the
first successful result it returns the 0-based positions (in the sorted
order, starting at `i`) of the strategies whose `parse` was invoked.
An exception from `can_parse` or `parse` is caught and the loop
continues; a `can_parse` returning false skips the strategy without
invoking `parse`. -/
def cascadeRunFrom {P : Type} (pg : P) : ℕ → List (Strategy P) → List ℕ × Option TrackInfo
  | _, [] => ([], none)
  | i, s :: rest =>
    match s.can_parse pg with
    | .error _ => cascadeRunFrom pg (i + 1) rest
    | .ok false => cascadeRunFrom pg (i + 1) rest
    | .ok true =>
      match s.parse pg with
      | .ok (some info) => ([i], some info)
      | .ok none =>
        let r := cascadeRunFrom pg (i + 1) rest
        (i :: r.1, r.2)
      | .error _ =>
        let r := cascadeRunFrom pg (i + 1) rest
        (i :: r.1, r.2)

/-- `CascadeParser` construction plus `parse`: sort once, then cascade. -/
def cascadeParse {P : Type} (parsers : List (Strategy P)) (pg : P) :
    List ℕ × Option TrackInfo :=
  cascadeRunFrom pg 0 (sortStrats parsers)

/-- The default `JsonLdParser()` as a strategy (priority 1; applicable
when a JSON-LD script tag is present). -/
def jsonLdStrategy : Strategy Page :=
  { name := "JSON-LD", priority := 1,
    can_parse := fun pg => .ok pg.jsonLdScript.isSome,
    parse := fun pg => .ok (json_ld_parse pg) }

/-- The default `OpenGraphParser()` as a strategy (priority 2; applicable
when an `og:title` meta tag is present). -/
def openGraphStrategy : Strategy Page :=
  { name := "Open Graph", priority := 2,
    can_parse := fun pg => .ok pg.ogTitleTag.isSome,
    parse := fun pg => .ok (open_graph_parse pg) }

/-- The default `HtmlCssParser()` as a strategy (priority 3; always
applicable, inheriting `BaseParser.can_parse`). -/
def htmlCssStrategy : Strategy Page :=
  { name := "HTML/CSS", priority := 3,
    can_parse := fun _ => .ok true,
    parse := fun pg => .ok (html_css_parse pg) }

/-- The default parser list of `CascadeParser.__init__`. -/
def defaultParsers : List (Strategy Page) :=
  [jsonLdStrategy, openGraphStrategy, htmlCssStrategy]

/-- A strategy declines on a page: its probe fails or errors, or its
parse returns nothing or raises. -/
def declines {P : Type} (s : Strategy P) (pg : P) : Prop :=
  s.can_parse pg = .error () ∨ s.can_parse pg = .ok false ∨
  (s.can_parse pg = .ok true ∧ (s.parse pg = .error () ∨ s.parse pg = .ok none))

/-- A strategy is applicable and succeeds with record `r`. -/
def succeedsWith {P : Type} (s : Strategy P) (pg : P) (r : TrackInfo) : Prop :=
  s.can_parse pg = .ok true ∧ s.parse pg = .ok (some r)

/-- Witness strategy that is applicable but raises internally. -/
def wStratRaises : Strategy Unit :=
  { name := "s1", priority := 1, can_parse := fun _ => .ok true,
    parse := fun _ => .error () }

/-- Witness record. -/
def wTrack : TrackInfo := { name := "n", artist := "a", duration := "0:01" }

/-- Witness strategy that succeeds with `wTrack`. -/
def wStratSucceeds : Strategy Unit :=
  { name := "s2", priority := 2, can_parse := fun _ => .ok true,
    parse := fun _ => .ok (some wTrack) }

/-- Witness strategy that would succeed but must never be invoked. -/
def wStratLast : Strategy Unit :=
  { name := "s3", priority := 3, can_parse := fun _ => .ok true,
    parse := fun _ => .ok (some wTrack) }

/-! ## `src/services/cache.py` (`cachetools.TTLCache`)

`TTLCache` keeps one link per key in expiry order; an entry is visible
while `now < expires` (`expires = insertion time + ttl`).  `__setitem__`
first expires stale links, then (for a new key) evicts earliest-expiring
entries while the store would exceed `maxsize`, and (re-)appends the key
with a fresh expiry at the end of the link order.  Clock readings from
the monotonic timer are idealised as rationals.  `maxsize ≥ 1` is
assumed (cachetools raises `KeyError` from `popitem` at `maxsize = 0`,
which is not modelled). -/

/-- One TTL link: key, absolute expiry time, and the stored record. -/
structure CacheEntry where
  key : String
  expires : ℚ
  info : TrackInfo

/-- The `TTLCache` state: configuration plus links in expiry order,
earliest first. -/
structure TTLCacheState where
  maxsize : ℕ
  ttl : ℚ
  entries : List CacheEntry

/-- `TTLCache.expire`: unlink entries whose expiry has been reached,
from the front of the expiry order. -/
def ttlExpire (now : ℚ) (es : List CacheEntry) : List CacheEntry :=
  es.dropWhile (fun e => decide (e.expires ≤ now))

/-- `TTLCache.__getitem__` under `Cache.get`: a stored key is visible
while strictly before its expiry; an expired or absent key yields
`None`. -/
def ttlGet (now : ℚ) (st : TTLCacheState) (key : String) : Option TrackInfo :=
  match st.entries.find? (fun e => e.key == key) with
  | some e => if now < e.expires then some e.info else none
  | none => none

/-- `TTLCache.__setitem__`: expire stale links; overwrite an existing key
(re-linking it at the end with a fresh expiry), or insert a new key after
evicting earliest-expiring entries while the store would overflow. -/
def ttlSet (now : ℚ) (st : TTLCacheState) (key : String) (info : TrackInfo) :
    TTLCacheState :=
  let es := ttlExpire now st.entries
  if es.any (fun e => e.key == key) then
    { st with entries := es.filter (fun e => !(e.key == key)) ++
        [⟨key, now + st.ttl, info⟩] }
  else
    let es2 := if st.maxsize ≤ es.length then
        es.drop (es.length + 1 - st.maxsize) else es
    { st with entries := es2 ++ [⟨key, now + st.ttl, info⟩] }

/-- The `TrackCache` wrapper state of `src/services/cache.py`. -/
structure TrackCacheState where
  cache : TTLCacheState
  hits : ℕ := 0
  misses : ℕ := 0

/-- `TrackCache.get`: look the id up and count a hit or a miss
(a stored `TrackInfo` is always truthy). -/
def trackCacheGet (now : ℚ) (st : TrackCacheState) (track_id : String) :
    Option TrackInfo × TrackCacheState :=
  match ttlGet now st.cache track_id with
  | some info => (some info, { st with hits := st.hits + 1 })
  | none => (none, { st with misses := st.misses + 1 })

/-- `TrackCache.set`: store under the id. -/
def trackCacheSet (now : ℚ) (st : TrackCacheState) (track_id : String)
    (info : TrackInfo) : TrackCacheState :=
  { st with cache := ttlSet now st.cache track_id info }

/-- Witness cache state: capacity 1, TTL 10, empty. -/
def wCacheState : TrackCacheState :=
  { cache := { maxsize := 1, ttl := 10, entries := [] } }

/-! ## `src/services/yandex_parser.py` (orchestrator) -/

/-- The failures `get_track_info` propagates: a typed HTTP/network error
re-raised by `_fetch_with_retry`, or `ParsingError` when the cascade
produced nothing. -/
inductive OrchError where
  | fetchError
  | parsingError
  deriving Repr, DecidableEq

/-- `YandexMusicParser.get_track_info`, with its collaborators injected:
`fetch` is `self._fetch_with_retry` (returning the page content or a
typed error that is re-raised), `parseCascade` is
`self.cascade_parser.parse(html, url)` closed over the url, and `now` the
clock reading for the cache operations of this call.  Returns the result,
the cache state after the call, and the number of fetch calls made
(the instrumentation for the zero-fetch cache-hit claim).  Stage order as
in the source: cache probe (when a `track_id` is given), fetch, cascade
parse, cache store, return. -/
def get_track_info {P : Type} (fetch : String → Except Unit P)
    (parseCascade : P → Option TrackInfo) (now : ℚ) (st : TrackCacheState)
    (url : String) (track_id : Option String) :
    Except OrchError TrackInfo × TrackCacheState × ℕ :=
  match track_id with
  | some tid =>
    match trackCacheGet now st tid with
    | (some cached, st1) => (.ok cached, st1, 0)
    | (none, st1) =>
      match fetch url with
      | .error _ => (.error .fetchError, st1, 1)
      | .ok page =>
        match parseCascade page with
        | none => (.error .parsingError, st1, 1)
        | some info => (.ok info, trackCacheSet now st1 tid info, 1)
  | none =>
    match fetch url with
    | .error _ => (.error .fetchError, st, 1)
    | .ok page =>
      match parseCascade page with
      | none => (.error .parsingError, st, 1)
      | some info => (.ok info, st, 1)

/-! ## `src/services/request_manager.py`

The retry loop of `RequestManager.fetch` is modelled with an outcome
oracle per 0-based loop attempt (`response` with status and `Retry-After`
header, or a network/timeout error — all retried alike), an explicit
jitter draw (`random.uniform(-j, j) = j * u` for some `u ∈ [-1, 1]`), and
an instrumentation trace of the sleeps performed and requests issued.
`httpx.Response.raise_for_status` raises for every non-2xx status, and
the raised error is caught by the `except httpx.HTTPError` clause, which
retries while attempts remain. -/

/-- The retry configuration of `RequestManager.__init__` (floats
idealised as rationals). -/
structure RMConfig where
  max_retries : ℕ
  initial_delay : ℚ
  max_delay : ℚ
  multiplier : ℚ
  jitter : ℚ

/-- `RequestManager._calculate_backoff` with the uniform draw explicit:
exponential delay with exponent `attempt - 1`, capped at `max_delay`,
perturbed by `jitter * delay * u`, floored at zero. -/
def calculate_backoff (cfg : RMConfig) (u : ℚ) (attempt : ℕ) : ℚ :=
  max 0 (min (cfg.initial_delay * cfg.multiplier ^ (attempt - 1)) cfg.max_delay +
    min (cfg.initial_delay * cfg.multiplier ^ (attempt - 1)) cfg.max_delay *
      cfg.jitter * u)

/-- What one `client.get` call yields: a response (status code plus
`Retry-After` header: absent, present but non-numeric/empty, or numeric),
or a timeout/connection/TLS/protocol error. -/
inductive AttemptOutcome where
  | response (status : ℕ) (retryAfter : Option (Option ℚ))
  | netError

/-- `RequestManager._get_retry_after`: the numeric header value, `None`
when the header is absent, empty, or not a float (a date). -/
def get_retry_after (h : Option (Option ℚ)) : Option ℚ :=
  match h with
  | none => none
  | some none => none
  | some (some q) => some q

/-- Observable fetch events: the backoff sleep at the top of a retry
iteration, the HTTP request of an attempt, and the `Retry-After` sleep of
the 429 special case. -/
inductive FetchEvent where
  | backoffSleep (d : ℚ)
  | request (attempt : ℕ)
  | retryAfterSleep (d : ℚ)
  deriving Repr, DecidableEq

/-- How `fetch` ends. -/
inductive FetchResult where
  | success (status : ℕ)
  | httpStatusError (status : ℕ)
  | networkError
  deriving Repr, DecidableEq

/-- The loop body of `RequestManager.fetch` from a given 0-based attempt,
with fuel `max_retries + 1 - attempt`: sleep backoff when `attempt > 0`;
issue the request; a retryable status with attempts remaining retries
(HTTP 429 with a truthy numeric `Retry-After` first sleeps
`min(retryAfter, max_delay)` and then continues into the next iteration,
whose top-of-loop backoff sleep still runs); a 2xx returns the response;
any other status or network error retries while attempts remain and is
raised once they run out. -/
def rm_fetch_iter (cfg : RMConfig) (retryOn : List ℕ)
    (resp : ℕ → AttemptOutcome) (u : ℕ → ℚ) :
    ℕ → ℕ → List FetchEvent × FetchResult
  | 0, _ => ([], .networkError)
  | fuel + 1, attempt =>
    let ev : List FetchEvent :=
      (if 0 < attempt then
        [.backoffSleep (calculate_backoff cfg (u attempt) attempt)] else []) ++
      [.request attempt]
    match resp attempt with
    | .netError =>
      if attempt < cfg.max_retries then
        (ev ++ (rm_fetch_iter cfg retryOn resp u fuel (attempt + 1)).1,
         (rm_fetch_iter cfg retryOn resp u fuel (attempt + 1)).2)
      else (ev, .networkError)
    | .response s ra =>
      if s ∈ retryOn ∧ attempt < cfg.max_retries then
        if s = 429 then
          match get_retry_after ra with
          | some q =>
            if q ≠ 0 then
              (ev ++ .retryAfterSleep (min q cfg.max_delay) ::
                 (rm_fetch_iter cfg retryOn resp u fuel (attempt + 1)).1,
               (rm_fetch_iter cfg retryOn resp u fuel (attempt + 1)).2)
            else
              (ev ++ (rm_fetch_iter cfg retryOn resp u fuel (attempt + 1)).1,
               (rm_fetch_iter cfg retryOn resp u fuel (attempt + 1)).2)
          | none =>
            (ev ++ (rm_fetch_iter cfg retryOn resp u fuel (attempt + 1)).1,
             (rm_fetch_iter cfg retryOn resp u fuel (attempt + 1)).2)
        else
          (ev ++ (rm_fetch_iter cfg retryOn resp u fuel (attempt + 1)).1,
           (rm_fetch_iter cfg retryOn resp u fuel (attempt + 1)).2)
      else
        if 200 ≤ s ∧ s < 300 then (ev, .success s)
        else if attempt < cfg.max_retries then
          (ev ++ (rm_fetch_iter cfg retryOn resp u fuel (attempt + 1)).1,
           (rm_fetch_iter cfg retryOn resp u fuel (attempt + 1)).2)
        else (ev, .httpStatusError s)

/-- `RequestManager.fetch`: run the loop from attempt 0. -/
def rm_fetch (cfg : RMConfig) (retryOn : List ℕ) (resp : ℕ → AttemptOutcome)
    (u : ℕ → ℚ) : List FetchEvent × FetchResult :=
  rm_fetch_iter cfg retryOn resp u (cfg.max_retries + 1) 0

/-- The default `retry_on_status` of `fetch`. -/
def defaultRetryOn : List ℕ := [429, 500, 502, 503, 504]

/-- The capped base backoff delay the code computes before 1-based
attempt `n` (exponent `n - 2`). -/
def backoffBase (cfg : RMConfig) (n : ℕ) : ℚ :=
  min (cfg.initial_delay * cfg.multiplier ^ (n - 2)) cfg.max_delay

/-- Concrete retry configuration for the counterexamples: one retry,
initial delay 1s, multiplier 2, no jitter. -/
def cexCfg : RMConfig :=
  { max_retries := 1, initial_delay := 1, max_delay := 60, multiplier := 2,
    jitter := 0 }

/-- Server behaviour: HTTP 500 on the first attempt, 200 afterwards. -/
def cex4Resp : ℕ → AttemptOutcome :=
  fun a => if a = 0 then .response 500 none else .response 200 none

/-- Server behaviour: HTTP 429 with `Retry-After: 5` on the first
attempt, 200 afterwards. -/
def cex5Resp : ℕ → AttemptOutcome :=
  fun a => if a = 0 then .response 429 (some (some 5)) else .response 200 none

/-! ## `src/utils/validators.py`

The regexes are compiled into deterministic matchers over character
lists (`\\d` is modelled as ASCII digits; Python's `$` also matches just
before one final newline).  `urllib.parse.urlparse` is modelled to the
extent `validate_yandex_music_url` and `is_yandex_music_url` use it —
the netloc of CPython 3.11 `urlsplit`: removal of tab/CR/LF anywhere,
scheme splitting, netloc up to the first `/?#` after `//`, and the
unbalanced-bracket `ValueError`.  Bracketed (IPv6) netlocs and the
non-ASCII NFKC netloc check are collapsed to the error case; no
`music.yandex.*` host involves them, and both modelled callers share
this function, so their relationship is preserved. -/

/-- Python `s.startswith(pre)`. -/
def pyStartsWith (s pre : String) : Bool := pre.data.isPrefixOf s.data

/-- Consume an exact literal prefix. -/
def lit (p l : List Char) : Option (List Char) :=
  if p.isPrefixOf l then some (l.drop p.length) else none

/-- Consume a maximal non-empty ASCII digit run (`\\d+`). -/
def digits1 (l : List Char) : Option (List Char × List Char) :=
  let ds := l.takeWhile Char.isDigit
  if ds.isEmpty then none else some (ds, l.dropWhile Char.isDigit)

/-- The top-level-domain alternation `(ru|com|by|kz|ua)` (no alternative
is a prefix of another, so first-match is exact). -/
def matchTld (l : List Char) : Option (List Char) :=
  match lit "ru".data l with
  | some r => some r
  | none =>
    match lit "com".data l with
    | some r => some r
    | none =>
      match lit "by".data l with
      | some r => some r
      | none =>
        match lit "kz".data l with
        | some r => some r
        | none => lit "ua".data l

/-- The shared pattern head `https?://music\\.yandex\\.(ru|com|by|kz|ua)`
(`s?` unfolded into the two scheme literals). -/
def matchSchemeHost (l : List Char) : Option (List Char) :=
  match lit "http://music.yandex.".data l with
  | some r => matchTld r
  | none =>
    match lit "https://music.yandex.".data l with
    | some r => matchTld r
    | none => none

/-- A list whose only newline, if any, is the final character — the
language of `.*$` in a non-MULTILINE Python regex. -/
def restNoNL : List Char → Bool
  | [] => true
  | ['\n'] => true
  | c :: rest => c ≠ '\n' && restNoNL rest

/-- The language of `(?:\\?.*)?$`: end (or final newline), or a query
part whose interior has no newline. -/
def queryEndOk : List Char → Bool
  | [] => true
  | ['\n'] => true
  | '?' :: rest => restNoNL rest
  | _ => false

/-- The album/track body of `YANDEX_MUSIC_TRACK_PATTERN` after the host:
`/album/(\\d+)/track/(\\d+)`, returning the two id substrings and the
rest. -/
def trackMatchCore (l : List Char) :
    Option (List Char × List Char × List Char) :=
  match matchSchemeHost l with
  | none => none
  | some r1 =>
    match lit "/album/".data r1 with
    | none => none
    | some r2 =>
      match digits1 r2 with
      | none => none
      | some (a, r3) =>
        match lit "/track/".data r3 with
        | none => none
        | some r4 =>
          match digits1 r4 with
          | none => none
          | some (t, r5) => some (a, t, r5)

/-- `YANDEX_MUSIC_TRACK_PATTERN.match`, as the two captured groups. -/
def trackMatch (l : List Char) : Option (String × String) :=
  match trackMatchCore l with
  | some (a, t, r) => if queryEndOk r then some (⟨a⟩, ⟨t⟩) else none
  | none => none

/-- `YANDEX_MUSIC_ALBUM_PATTERN.match` (`/album/\\d+/?$`). -/
def albumMatch (l : List Char) : Bool :=
  match matchSchemeHost l with
  | none => false
  | some r1 =>
    match lit "/album/".data r1 with
    | none => false
    | some r2 =>
      match digits1 r2 with
      | none => false
      | some (_, r3) =>
        r3 = [] || r3 = ['\n'] || r3 = ['/'] || r3 = ['/', '\n']

/-- `YANDEX_MUSIC_ARTIST_PATTERN.match` (prefix `/artist/\\d+`). -/
def artistMatch (l : List Char) : Bool :=
  match matchSchemeHost l with
  | none => false
  | some r1 =>
    match lit "/artist/".data r1 with
    | none => false
    | some r2 => (digits1 r2).isSome

/-- The `.*/playlists/\\d+` scan of the playlist pattern: some split
point whose left part has no newline reaches `/playlists/` and a
digit. -/
def playlistTail : List Char → Bool
  | [] => false
  | l@(c :: rest) =>
    (match lit "/playlists/".data l with
     | none => false
     | some r => (digits1 r).isSome) || (c ≠ '\n' && playlistTail rest)

/-- `YANDEX_MUSIC_PLAYLIST_PATTERN.match` (prefix
`/users/.*/playlists/\\d+`). -/
def playlistMatch (l : List Char) : Bool :=
  match matchSchemeHost l with
  | none => false
  | some r1 =>
    match lit "/users/".data r1 with
    | none => false
    | some r2 => playlistTail r2

/-- CPython `urlsplit` preprocessing: remove every tab, CR and LF. -/
def removeUnsafe (l : List Char) : List Char :=
  l.filter (fun c => !(c == '\t' || c == '\r' || c == '\n'))

/-- A scheme character (`scheme_chars`: ASCII alphanumerics and
`+ - .`). -/
def isSchemeChar (c : Char) : Bool :=
  c.isAlphanum || c == '+' || c == '-' || c == '.'

/-- The scheme-splitting step of `urlsplit`: when the text before the
first colon is a well-formed scheme, drop it and the colon. -/
def schemeSplit (l : List Char) : List Char :=
  match l.findIdx? (fun c => c == ':') with
  | some i =>
    if 0 < i ∧ l.head?.any Char.isAlpha ∧ (l.take i).all isSchemeChar then
      l.drop (i + 1)
    else l
  | none => l

/-- `_splitnetloc`: the text after `//` up to the first `/`, `?` or
`#`. -/
def splitNetloc (l : List Char) : List Char :=
  (l.drop 2).takeWhile (fun c => !(c == '/' || c == '?' || c == '#'))

/-- The `netloc` attribute of `urlparse(url)`; `none` models a raised
`ValueError` (unbalanced or, conservatively, any brackets). -/
def pyUrlsplitNetloc (s : String) : Option String :=
  let l := removeUnsafe s.data
  let l2 := schemeSplit l
  if l2.take 2 = ['/', '/'] then
    let nl := splitNetloc l2
    if nl.contains '[' || nl.contains ']' then none
    else some ⟨nl⟩
  else some ""

/-- The validation error taxonomy of `src/exceptions.py` used by
`validate_yandex_music_url`. -/
inductive ValidationError where
  | notUrl
  | wrongDomain
  | wrongService
  | albumUrl
  | artistUrl
  | playlistUrl
  | invalidTrackId
  deriving Repr, DecidableEq

/-- `validate_yandex_music_url` of `src/utils/validators.py`: strip;
scheme check; `urlparse` netloc checks (empty → `NotUrl`;
non-`music.yandex.` → `WrongService` when the netloc contains
`"yandex"`, else `WrongDomain`); album/artist/playlist page patterns;
then the track pattern, whose groups are returned; otherwise the
diagnostic fallback on `/album/` and `/track/` substrings. -/
def validate_yandex_music_url (url : String) :
    Except ValidationError (String × String) :=
  let u := pyStrip url
  if ¬ (pyStartsWith u "http://" || pyStartsWith u "https://") then
    .error .notUrl
  else
    match pyUrlsplitNetloc u with
    | none => .error .notUrl
    | some netloc =>
      if netloc = "" then .error .notUrl
      else if ¬ pyStartsWith netloc "music.yandex." then
        (if pyInStr "yandex" netloc then .error .wrongService
         else .error .wrongDomain)
      else if albumMatch u.data then .error .albumUrl
      else if artistMatch u.data then .error .artistUrl
      else if playlistMatch u.data then .error .playlistUrl
      else
        match trackMatch u.data with
        | some ids => .ok ids
        | none =>
          if pyInStr "/album/" u ∧ ¬ pyInStr "/track/" u then
            .error .albumUrl
          else if pyInStr "/track/" u then .error .invalidTrackId
          else .error .wrongService

/-- `is_yandex_music_url`: the loose domain pre-filter of the message
handler — strip, parse, check the netloc prefix; any parse error gives
`False`. -/
def is_yandex_music_url (url : String) : Bool :=
  match pyUrlsplitNetloc (pyStrip url) with
  | some netloc => pyStartsWith netloc "music.yandex."
  | none => false

/-- The consumed prefixes of `https?://music\\.yandex\\.(ru|com|by|kz|ua)`,
used to state the scheme-host matcher inversion. -/
def schemeHostPre (p : List Char) : Prop :=
  ∃ s tld : String, (s = "http://" ∨ s = "https://") ∧
    (tld = "ru" ∨ tld = "com" ∨ tld = "by" ∨ tld = "kz" ∨ tld = "ua") ∧
    p = s.data ++ "music.yandex.".data ++ tld.data

end YM

/-! ## Claim theorems -/

open YM

/-- C8: `extract_artists` maps a single artist object to its name, two
artists to `"A feat. B"`, three or more to `"A feat. B, C"` (first name
primary, the rest comma-joined after "feat."), and an empty or absent
input to the unknown-artist sentinel. -/
theorem extract_artists_formats :
    extract_artists (.obj [("name", .str "Кино")]) = .ok "Кино" ∧
    extract_artists (.arr [.obj [("name", .str "Miyagi")],
        .obj [("name", .str "Эндшпиль")]]) = .ok "Miyagi feat. Эндшпиль" ∧
    extract_artists (.arr [.obj [("name", .str "DJ Snake")],
        .obj [("name", .str "Lil Jon")], .obj [("name", .str "Pitbull")]])
      = .ok "DJ Snake feat. Lil Jon, Pitbull" ∧
    extract_artists (.arr []) = .ok unknownArtist ∧
    extract_artists .null = .ok unknownArtist := by
  refine ⟨?_, ?_, ?_, ?_, ?_⟩ <;> rfl

/-- C9: ISO-8601 duration conversion: `"PT3M45S"` to `"3:45"`,
`"PT1H2M30S"` to `"62:30"` (hours folded into minutes), `"PT45S"` to
`"0:45"` (zero-padded seconds); and every malformed input — one not
matching the duration grammar, within the modelled fragment where
isodate's extended-datetime fallback provably fails — yields `none`
(the caller substitutes the dash sentinel) instead of an exception. -/
theorem parse_iso_duration_spec :
    parse_iso_duration "PT3M45S" = some "3:45" ∧
    parse_iso_duration "PT1H2M30S" = some "62:30" ∧
    parse_iso_duration "PT45S" = some "0:45" ∧
    ∀ s : String, matchPeriod s.data = none →
      (s.data.head? ≠ some 'P' ∨ (s.data.drop 1).count 'T' ≠ 1) →
      parse_iso_duration s = none := by
  refine ⟨by rfl, by rfl, by rfl, ?_⟩
  intro s h _
  simp [parse_iso_duration, h]

/-- Witness for C9 at a concrete malformed input. -/
theorem parse_iso_duration_spec_witness : parse_iso_duration "3:45" = none :=
  parse_iso_duration_spec.2.2.2 "3:45" (by rfl) (Or.inl (by decide))

/-! ### Helper lemmas -/

/-- Bind on a successful `Except` computation. -/
theorem exc_bind_ok {ε α β : Type} (a : α) (f : α → Except ε β) :
    (Except.ok a >>= f) = f a := rfl

/-- Bind on a failed `Except` computation. -/
theorem exc_bind_err {ε α β : Type} (e : ε) (f : α → Except ε β) :
    ((Except.error e : Except ε α) >>= f) = Except.error e := rfl

/-- Pure of the `Except` monad. -/
theorem exc_pure {ε α : Type} (a : α) : (pure a : Except ε α) = Except.ok a := rfl

/-- A string is empty exactly when its character list is. -/
theorem str_eq_empty_iff (s : String) : s = "" ↔ s.data = [] := by
  constructor
  · intro h; simp [h]
  · intro h
    cases s with
    | mk d => subst h; rfl

/-- A concatenation with a non-empty middle part is non-empty. -/
theorem append_middle_ne_empty (a m b : String) (hm : m.data ≠ []) :
    a ++ m ++ b ≠ "" := by
  intro hc
  have hd := congrArg String.data hc
  rw [String.data_append, String.data_append] at hd
  simp only [List.append_eq_nil] at hd
  exact hm hd.1.2

/-- Every name collected by the `extract_artists` loop is non-empty. -/
theorem collectNames_ne_empty (xs : List PyJson) (ns : List String)
    (h : collectNames xs = .ok ns) : ∀ n ∈ ns, n ≠ "" := by
  induction xs generalizing ns with
  | nil =>
    simp only [collectNames, Except.ok.injEq] at h
    subst h; simp
  | cons a rest ih =>
    cases a with
    | obj fs =>
      simp only [collectNames] at h
      cases hv : objGet fs "name" with
      | none => simp only [hv] at h; exact ih ns h
      | some v =>
        simp only [hv] at h
        cases hs : jsonStrip v with
        | error e => simp only [hs, exc_bind_err] at h; exact (Except.noConfusion h)
        | ok n =>
          simp only [hs, exc_bind_ok] at h
          cases hr : collectNames rest with
          | error e => simp only [hr, exc_bind_err] at h; exact (Except.noConfusion h)
          | ok ns0 =>
            simp only [hr, exc_bind_ok, exc_pure, Except.ok.injEq] at h
            subst h
            intro x hx
            by_cases hn : n = ""
            · simp only [if_pos hn] at hx
              exact ih ns0 hr x hx
            · simp only [if_neg hn, List.mem_cons] at hx
              rcases hx with hx | hx
              · subst hx; exact hn
              · exact ih ns0 hr x hx
    | null => exact ih ns (by simpa [collectNames] using h)
    | bool b => exact ih ns (by simpa [collectNames] using h)
    | num q => exact ih ns (by simpa [collectNames] using h)
    | str s => exact ih ns (by simpa [collectNames] using h)
    | arr l => exact ih ns (by simpa [collectNames] using h)

/-- Whatever `extract_artists` returns without raising is non-empty. -/
theorem extract_artists_ok_ne_empty (j : PyJson) (a : String)
    (h : extract_artists j = .ok a) : a ≠ "" := by
  have hsent : unknownArtist ≠ "" := by decide
  unfold extract_artists at h
  by_cases ht : j.truthy
  · rw [if_pos ht] at h
    cases j with
    | obj fs =>
      simp only at h
      cases hs : jsonStrip ((objGet fs "name").getD (PyJson.str "")) with
      | error e => simp only [hs, exc_bind_err] at h; exact (Except.noConfusion h)
      | ok n =>
        simp only [hs, exc_bind_ok, exc_pure, Except.ok.injEq] at h
        subst h
        by_cases hn : n = "" <;> simp [hn, hsent]
    | arr xs =>
      simp only at h
      cases hc : collectNames xs with
      | error e => simp only [hc, exc_bind_err] at h; exact (Except.noConfusion h)
      | ok ns =>
        simp only [hc, exc_bind_ok] at h
        have hne := collectNames_ne_empty xs ns hc
        cases ns with
        | nil =>
          simp only [exc_pure, Except.ok.injEq] at h
          subst h; exact hsent
        | cons n1 t1 =>
          cases t1 with
          | nil =>
            simp only [exc_pure, Except.ok.injEq] at h
            subst h; exact hne n1 (by simp)
          | cons n2 t2 =>
            cases t2 with
            | nil =>
              simp only [exc_pure, Except.ok.injEq] at h
              subst h
              exact append_middle_ne_empty n1 " feat. " n2 (by decide)
            | cons n3 t3 =>
              simp only [exc_pure, Except.ok.injEq] at h
              subst h
              exact append_middle_ne_empty n1 " feat. "
                (pyJoin ", " (n2 :: n3 :: t3)) (by decide)
    | str s =>
      simp only [exc_pure, Except.ok.injEq] at h
      subst h
      by_cases hp : pyStrip s = "" <;> simp [hp, hsent]
    | null => simp [PyJson.truthy] at ht
    | bool b =>
      simp only [exc_pure, Except.ok.injEq] at h
      subst h; exact hsent
    | num q =>
      simp only [exc_pure, Except.ok.injEq] at h
      subst h; exact hsent
  · rw [if_neg ht] at h
    simp only [Except.ok.injEq] at h
    subst h; exact hsent

/-- Artist non-emptiness for the JSON-LD strategy body. -/
theorem json_ld_data_artist_ne (url : String) (data : PyJson) (info : TrackInfo)
    (h : json_ld_parse_data url data = some info) : info.artist ≠ "" := by
  rcases data with _ | b | q | s0 | xs | fs <;>
      simp only [json_ld_parse_data] at h <;>
      try exact Option.noConfusion h
  repeat' first
    | exact Option.noConfusion h
    | split at h
  all_goals simp only [Option.some.injEq] at h
  all_goals subst h
  all_goals exact extract_artists_ok_ne_empty _ _ (by assumption)

/-- Artist non-emptiness for the Open-Graph strategy. -/
theorem og_artist_ne (pg : Page) (info : TrackInfo)
    (h : open_graph_parse pg = some info) : info.artist ≠ "" := by
  unfold open_graph_parse at h
  repeat' first
    | exact Option.noConfusion h
    | split at h
  all_goals simp only [Option.some.injEq] at h
  all_goals subst h
  all_goals intro hx
  all_goals simp [unknownArtist] at hx
  all_goals exact absurd hx (by assumption)

/-- C7 counterexample: on a page whose track title is present and whose
first artist selector matches a single element with empty text, the
HTML/CSS strategy produces a TrackRecord whose artist field is the empty
string — not the unknown-artist sentinel. -/
theorem html_css_empty_artist_cex :
    html_css_parse c7Page = some
      { name := "Song", artist := "", duration := "—", album := none,
        url := some "https://music.yandex.ru/album/1/track/2" } := by rfl

/-- C7 (amended): records of the JSON-LD and Open-Graph strategies always
carry a non-empty artist (the sentinel when the data lacks one); the
HTML/CSS strategy yields the sentinel when no artist element matches, but
when elements match, the artist is their `", "`-join, which is empty
exactly when a single element with empty text matched. -/
theorem strategy_artist_spec_amended :
    (∀ (pg : Page) (info : TrackInfo), json_ld_parse pg = some info →
      info.artist ≠ "") ∧
    (∀ (pg : Page) (info : TrackInfo), open_graph_parse pg = some info →
      info.artist ≠ "") ∧
    (∀ (pg : Page) (info : TrackInfo), html_css_parse pg = some info →
      (html_extract_all_by_selectors pg artistSelectors = [] →
        info.artist = unknownArtist) ∧
      (info.artist = "" ↔
        html_extract_all_by_selectors pg artistSelectors = [""])) := by
  refine ⟨?_, ?_, ?_⟩
  · intro pg info h
    unfold json_ld_parse at h
    cases hsc : pg.jsonLdScript with
    | none => rw [hsc] at h; exact Option.noConfusion h
    | some inner =>
      rw [hsc] at h
      cases inner with
      | none => exact Option.noConfusion h
      | some data => exact json_ld_data_artist_ne pg.url data info h
  · exact og_artist_ne
  · intro pg info h
    unfold html_css_parse at h
    cases hn : html_extract_by_selectors pg trackNameSelectors with
    | none => rw [hn] at h; exact Option.noConfusion h
    | some track =>
      rw [hn] at h
      simp only [Option.some.injEq] at h
      subst h
      constructor
      · intro he; simp [he]
      · cases hts : html_extract_all_by_selectors pg artistSelectors with
        | nil =>
          simp only [hts, List.isEmpty_nil, if_pos]
          constructor
          · intro hx; exact absurd hx (by decide)
          · intro hx; exact absurd hx (by simp)
        | cons t1 ts =>
          cases ts with
          | nil => simp [hts, pyJoin]
          | cons t2 ts2 =>
            simp only [hts, List.isEmpty_cons, if_neg, Bool.false_eq_true,
              not_false_iff]
            constructor
            · intro hx
              exact absurd hx (append_middle_ne_empty t1 ", "
                (pyJoin ", " (t2 :: ts2)) (by decide))
            · intro hx; simp at hx

/-- Witness for the amended C7 theorem on a concrete JSON-LD page. -/
theorem strategy_artist_spec_amended_witness : ("Кино" : String) ≠ "" :=
  strategy_artist_spec_amended.1 c7JsonPage
    { name := "Song", artist := "Кино", duration := "3:45", album := none,
      url := some "https://music.yandex.ru/album/1/track/2" } (by rfl)

/-- C2: for every page, the cascade tries strategies in ascending
priority order; it returns the record of the first applicable, successful
strategy, without invoking any later strategy after a success (if
strategy 1 declines and strategy 2 succeeds, the result is strategy 2's
and strategy 3's parse is never invoked); a raised exception counts as a
decline and the cascade continues; all declining yields no result. -/
theorem cascade_dispatch_spec {P : Type} (s1 s2 s3 : Strategy P) (pg : P)
    (r : TrackInfo) (h1 : s1.priority = 1) (h2 : s2.priority = 2)
    (h3 : s3.priority = 3) :
    sortStrats [s1, s2, s3] = [s1, s2, s3] ∧
    (succeedsWith s1 pg r → cascadeParse [s1, s2, s3] pg = ([0], some r)) ∧
    (declines s1 pg → succeedsWith s2 pg r →
      (cascadeParse [s1, s2, s3] pg).2 = some r ∧
      2 ∉ (cascadeParse [s1, s2, s3] pg).1) ∧
    (declines s1 pg → declines s2 pg → succeedsWith s3 pg r →
      (cascadeParse [s1, s2, s3] pg).2 = some r) ∧
    (declines s1 pg → declines s2 pg → declines s3 pg →
      (cascadeParse [s1, s2, s3] pg).2 = none) := by
  have hsort : sortStrats [s1, s2, s3] = [s1, s2, s3] := by
    simp [sortStrats, insertStrat, h1, h2, h3]
  refine ⟨hsort, ?_, ?_, ?_, ?_⟩
  · rintro ⟨hc, hp⟩
    simp [cascadeParse, hsort, cascadeRunFrom, hc, hp]
  · rintro (hd | hd | ⟨hc1, hp1 | hp1⟩) ⟨hc2, hp2⟩ <;>
      simp [cascadeParse, hsort, cascadeRunFrom, *]
  · rintro (hd | hd | ⟨hc1, hp1 | hp1⟩) (he | he | ⟨hc2, hp2 | hp2⟩) ⟨hc3, hp3⟩ <;>
      simp [cascadeParse, hsort, cascadeRunFrom, *]
  · rintro (hd | hd | ⟨hc1, hp1 | hp1⟩) (he | he | ⟨hc2, hp2 | hp2⟩)
      (hf | hf | ⟨hc3, hp3 | hp3⟩) <;>
      simp [cascadeParse, hsort, cascadeRunFrom, *]

/-- Witness for C2: strategy 1 raises, strategy 2 succeeds, strategy 3 is
never invoked. -/
theorem cascade_dispatch_spec_witness :
    (cascadeParse [wStratRaises, wStratSucceeds, wStratLast] ()).2 = some wTrack ∧
    2 ∉ (cascadeParse [wStratRaises, wStratSucceeds, wStratLast] ()).1 :=
  (cascade_dispatch_spec wStratRaises wStratSucceeds wStratLast () wTrack
      rfl rfl rfl).2.2.1
    (Or.inr (Or.inr ⟨rfl, Or.inl rfl⟩)) ⟨rfl, rfl⟩

/-- Finding skips a prefix with no matches. -/
theorem find?_append_right {α : Type} (p : α → Bool) (l1 l2 : List α)
    (h : ∀ e ∈ l1, p e = false) : (l1 ++ l2).find? p = l2.find? p := by
  induction l1 with
  | nil => rfl
  | cons a t ih =>
    simp only [List.cons_append, List.find?_cons, h a (by simp)]
    exact ih (fun e he => h e (by simp [he]))

/-- After storing under `k`, looking `k` up sees exactly the fresh entry:
present before `t0 + ttl`, absent afterwards. -/
theorem ttlGet_after_set (t0 t1 : ℚ) (st : TTLCacheState) (k : String)
    (v : TrackInfo) :
    ttlGet t1 (ttlSet t0 st k v) k =
      if t1 < t0 + st.ttl then some v else none := by
  unfold ttlGet ttlSet
  by_cases hex : (ttlExpire t0 st.entries).any (fun e => e.key == k)
  · simp only [hex, if_true]
    rw [find?_append_right]
    · simp [List.find?]
    · intro e he
      have := (List.mem_filter.mp he).2
      simpa using this
  · simp only [hex, if_false, Bool.false_eq_true]
    rw [find?_append_right]
    · simp [List.find?]
    · intro e he
      have hmem : e ∈ ttlExpire t0 st.entries := by
        by_cases hc : st.maxsize ≤ (ttlExpire t0 st.entries).length
        · rw [if_pos hc] at he; exact List.mem_of_mem_drop he
        · rw [if_neg hc] at he; exact he
      have hall : ∀ x ∈ ttlExpire t0 st.entries, ¬ (x.key == k) = true := by
        simpa [List.any_eq_true] using hex
      simpa using hall e hmem

/-- C6: after `put(K, R)`, a `get(K)` strictly before the TTL has elapsed
returns `R` and counts a hit; a `get(K)` at or after expiry returns
nothing and counts a miss; and a store within capacity never grows past
`maxsize` entries (capacity at least one). -/
theorem cache_contract_spec (t0 t1 : ℚ) (st : TrackCacheState) (k : String)
    (v : TrackInfo) :
    (t1 < t0 + st.cache.ttl →
      (trackCacheGet t1 (trackCacheSet t0 st k v) k).1 = some v ∧
      (trackCacheGet t1 (trackCacheSet t0 st k v) k).2.hits = st.hits + 1) ∧
    (t0 + st.cache.ttl ≤ t1 →
      (trackCacheGet t1 (trackCacheSet t0 st k v) k).1 = none ∧
      (trackCacheGet t1 (trackCacheSet t0 st k v) k).2.misses = st.misses + 1) ∧
    (st.cache.entries.length ≤ st.cache.maxsize → 1 ≤ st.cache.maxsize →
      (trackCacheSet t0 st k v).cache.entries.length ≤ st.cache.maxsize) := by
  refine ⟨?_, ?_, ?_⟩
  · intro hlt
    have hg : ttlGet t1 (ttlSet t0 st.cache k v) k = some v := by
      rw [ttlGet_after_set, if_pos hlt]
    simp [trackCacheGet, trackCacheSet, hg]
  · intro hge
    have hg : ttlGet t1 (ttlSet t0 st.cache k v) k = none := by
      rw [ttlGet_after_set, if_neg (by linarith)]
    simp [trackCacheGet, trackCacheSet, hg]
  · intro hlen hmax
    have hexp : (ttlExpire t0 st.cache.entries).length ≤ st.cache.entries.length :=
      (List.dropWhile_sublist (fun e => decide (e.expires ≤ t0))
        (l := st.cache.entries)).length_le
    unfold trackCacheSet ttlSet
    by_cases hex : (ttlExpire t0 st.cache.entries).any (fun e => e.key == k)
    · simp only [hex, if_true]
      have hfl : ((ttlExpire t0 st.cache.entries).filter
          (fun e => !(e.key == k))).length < (ttlExpire t0 st.cache.entries).length := by
        refine List.length_filter_lt_length_iff_exists.mpr ?_
        obtain ⟨x, hx, hpx⟩ := List.any_eq_true.mp hex
        exact ⟨x, hx, by simp_all⟩
      simp only [List.length_append, List.length_cons, List.length_nil]
      omega
    · simp only [hex, if_false, Bool.false_eq_true]
      by_cases hc : st.cache.maxsize ≤ (ttlExpire t0 st.cache.entries).length
      · rw [if_pos hc]
        simp only [List.length_append, List.length_drop, List.length_cons,
          List.length_nil]
        omega
      · rw [if_neg hc]
        simp only [List.length_append, List.length_cons, List.length_nil]
        omega

/-- Witness for C6 on a concrete empty cache of capacity 1 and TTL 10. -/
theorem cache_contract_spec_witness :
    (trackCacheGet 5 (trackCacheSet 0 wCacheState "1:2" wTrack) "1:2").1 =
        some wTrack ∧
    (trackCacheGet 5 (trackCacheSet 0 wCacheState "1:2" wTrack) "1:2").2.hits = 1 :=
  (cache_contract_spec 0 5 wCacheState "1:2" wTrack).1 (by norm_num [wCacheState])

/-- C1: a cache-miss `get_track_info` call that fetches and extracts
successfully performs one fetch, stores the record under the cache key
before returning it, and a second call with the same key within the TTL
returns the stored record from the cache with zero fetch calls (counting
a hit), whatever fetcher or parser the second call would use. -/
theorem get_track_info_cache_roundtrip {P Q : Type}
    (fetch : String → Except Unit P) (parseCascade : P → Option TrackInfo)
    (fetch2 : String → Except Unit Q) (parse2 : Q → Option TrackInfo)
    (t0 t1 : ℚ) (st : TrackCacheState) (url url2 key : String)
    (page : P) (r : TrackInfo)
    (hmiss : ttlGet t0 st.cache key = none)
    (hfetch : fetch url = .ok page)
    (hparse : parseCascade page = some r)
    (hlive : t1 < t0 + st.cache.ttl) :
    get_track_info fetch parseCascade t0 st url (some key) =
      (.ok r, trackCacheSet t0 { st with misses := st.misses + 1 } key r, 1) ∧
    ttlGet t1 (trackCacheSet t0 { st with misses := st.misses + 1 } key r).cache
        key = some r ∧
    get_track_info fetch2 parse2 t1
        (trackCacheSet t0 { st with misses := st.misses + 1 } key r) url2
        (some key) =
      (.ok r,
       { trackCacheSet t0 { st with misses := st.misses + 1 } key r with
         hits := st.hits + 1 }, 0) := by
  have hg2 : ttlGet t1
      (trackCacheSet t0 { st with misses := st.misses + 1 } key r).cache key =
      some r := by
    show ttlGet t1 (ttlSet t0 st.cache key r) key = some r
    rw [ttlGet_after_set, if_pos hlive]
  refine ⟨?_, hg2, ?_⟩
  · simp [get_track_info, trackCacheGet, hmiss, hfetch, hparse]
  · have hg2x : ttlGet t1 (ttlSet t0 st.cache key r) key = some r := hg2
    simp [get_track_info, trackCacheGet, trackCacheSet, hg2x]

/-- Witness for C1 with a one-page fetcher and a constant extractor. -/
theorem get_track_info_cache_roundtrip_witness :
    get_track_info (fun _ => Except.ok ()) (fun _ => some wTrack) 0 wCacheState
        "u" (some "1:2") =
      (.ok wTrack, trackCacheSet 0 { wCacheState with misses := 1 } "1:2" wTrack,
       1) ∧
    ttlGet 5 (trackCacheSet 0 { wCacheState with misses := 1 } "1:2" wTrack).cache
        "1:2" = some wTrack ∧
    get_track_info (fun _ => Except.ok ()) (fun _ => some wTrack) 5
        (trackCacheSet 0 { wCacheState with misses := 1 } "1:2" wTrack) "u2"
        (some "1:2") =
      (.ok wTrack,
       { trackCacheSet 0 { wCacheState with misses := 1 } "1:2" wTrack with
         hits := 1 }, 0) :=
  get_track_info_cache_roundtrip (fun _ => Except.ok ()) (fun _ => some wTrack)
    (fun _ => Except.ok ()) (fun _ => some wTrack) 0 5 wCacheState "u" "u2"
    "1:2" () wTrack (by rfl) (by rfl) (by rfl) (by norm_num [wCacheState])

/-- Every loop iteration with a positive attempt index begins with the
backoff sleep the code computes for that attempt — including the
iteration entered through the 429 `Retry-After` `continue`. -/
theorem rm_iter_head_backoff (cfg : RMConfig) (retryOn : List ℕ)
    (resp : ℕ → AttemptOutcome) (u : ℕ → ℚ) (fuel a : ℕ) (ha : 0 < a) :
    ∃ rest, (rm_fetch_iter cfg retryOn resp u (fuel + 1) a).1 =
      FetchEvent.backoffSleep (calculate_backoff cfg (u a) a) :: rest := by
  unfold rm_fetch_iter
  simp only [ha, if_true]
  cases hr : resp a <;> simp only [hr]
  case response s ra =>
    repeat' first
      | exact ⟨_, rfl⟩
      | split
  case netError =>
    repeat' first
      | exact ⟨_, rfl⟩
      | split

/-- C4 counterexample: with `initialDelay = 1`, `multiplier = 2`,
`maxDelay = 60`, zero jitter, and a 500 on the first attempt, the sleep
before attempt 2 (1-based) is 1 second — `initialDelay * multiplier^0` —
whereas the claimed formula `min(maxDelay, initialDelay *
multiplier^(n-1))` predicts 2 seconds for `n = 2`. -/
theorem backoff_formula_cex :
    rm_fetch cexCfg defaultRetryOn cex4Resp (fun _ => 0) =
      ([.request 0, .backoffSleep 1, .request 1], .success 200) ∧
    min (cexCfg.initial_delay * cexCfg.multiplier ^ (2 - 1)) cexCfg.max_delay
      = 2 ∧
    (1 : ℚ) ≠ 2 := by
  refine ⟨?_, ?_, by norm_num⟩
  · simp [rm_fetch, rm_fetch_iter, cexCfg, cex4Resp, defaultRetryOn,
      calculate_backoff]
  · simp [cexCfg]
    norm_num

/-- C4 (amended): before every attempt `n ≥ 2` (attempts numbered
`1..maxRetries+1`) the fetcher sleeps
`min(maxDelay, initialDelay * multiplier^(n-2))` — exponent `n-2`, not
`n-1` — perturbed by a uniform jitter draw of magnitude at most
`jitterFraction` times that capped delay, and floored at zero. -/
theorem backoff_formula_amended (cfg : RMConfig) (retryOn : List ℕ)
    (resp : ℕ → AttemptOutcome) (u : ℕ → ℚ) (fuel n : ℕ)
    (h2 : 2 ≤ n) (hu1 : -1 ≤ u (n - 1)) (hu2 : u (n - 1) ≤ 1)
    (hj : 0 ≤ cfg.jitter) (hi : 0 ≤ cfg.initial_delay)
    (hm : 0 ≤ cfg.max_delay) (hmul : 0 ≤ cfg.multiplier) :
    (∃ rest, (rm_fetch_iter cfg retryOn resp u (fuel + 1) (n - 1)).1 =
      FetchEvent.backoffSleep
        (max 0 (backoffBase cfg n + backoffBase cfg n * cfg.jitter * u (n - 1)))
        :: rest) ∧
    |backoffBase cfg n * cfg.jitter * u (n - 1)| ≤
      cfg.jitter * backoffBase cfg n := by
  have ha : 0 < n - 1 := by omega
  have hcb : calculate_backoff cfg (u (n - 1)) (n - 1) =
      max 0 (backoffBase cfg n + backoffBase cfg n * cfg.jitter * u (n - 1)) := by
    unfold calculate_backoff backoffBase
    have hnn : n - 1 - 1 = n - 2 := by omega
    rw [hnn]
  constructor
  · obtain ⟨rest, hr⟩ := rm_iter_head_backoff cfg retryOn resp u fuel (n - 1) ha
    exact ⟨rest, by rw [hr, hcb]⟩
  · have hb : 0 ≤ backoffBase cfg n := by
      unfold backoffBase
      exact le_min (mul_nonneg hi (pow_nonneg hmul _)) hm
    have habs : |u (n - 1)| ≤ 1 := abs_le.mpr ⟨hu1, hu2⟩
    calc |backoffBase cfg n * cfg.jitter * u (n - 1)|
        = backoffBase cfg n * cfg.jitter * |u (n - 1)| := by
          rw [abs_mul, abs_of_nonneg (mul_nonneg hb hj)]
      _ ≤ backoffBase cfg n * cfg.jitter * 1 :=
          mul_le_mul_of_nonneg_left habs (mul_nonneg hb hj)
      _ = cfg.jitter * backoffBase cfg n := by ring

/-- Witness for the amended C4 at the concrete configuration. -/
theorem backoff_formula_amended_witness :
    (∃ rest, (rm_fetch_iter cexCfg defaultRetryOn cex4Resp (fun _ => 0) 1 1).1 =
      FetchEvent.backoffSleep
        (max 0 (backoffBase cexCfg 2 +
          backoffBase cexCfg 2 * cexCfg.jitter * 0)) :: rest) ∧
    |backoffBase cexCfg 2 * cexCfg.jitter * 0| ≤
      cexCfg.jitter * backoffBase cexCfg 2 :=
  backoff_formula_amended cexCfg defaultRetryOn cex4Resp (fun _ => 0) 0 2
    (by norm_num) (by norm_num) (by norm_num) (by norm_num [cexCfg])
    (by norm_num [cexCfg]) (by norm_num [cexCfg]) (by norm_num [cexCfg])

/-- C5 counterexample: on HTTP 429 with `Retry-After: 5` and a retry
remaining (no jitter, initial delay 1), the fetcher sleeps 5 seconds and
then ALSO performs the 1-second exponential-backoff sleep before the
retry attempt — the claim says no backoff sleep occurs before it. -/
theorem retry_after_cex :
    rm_fetch cexCfg defaultRetryOn cex5Resp (fun _ => 0) =
      ([.request 0, .retryAfterSleep 5, .backoffSleep 1, .request 1],
       .success 200) := by
  simp [rm_fetch, rm_fetch_iter, cexCfg, cex5Resp, defaultRetryOn,
    calculate_backoff, get_retry_after]
  norm_num

/-- C5 (amended): a fetch attempt receiving HTTP 429 with a truthy
numeric `Retry-After` while retries remain sleeps
`min(retryAfter, maxDelay)` seconds and then, in addition, performs the
normal exponential-backoff sleep at the top of the retry iteration —
the `Retry-After` sleep supplements the backoff instead of replacing
it. -/
theorem retry_after_amended (cfg : RMConfig) (retryOn : List ℕ)
    (resp : ℕ → AttemptOutcome) (u : ℕ → ℚ) (fuel a : ℕ) (q : ℚ)
    (hs : resp a = .response 429 (some (some q))) (hq : q ≠ 0)
    (h429 : (429 : ℕ) ∈ retryOn) (hlt : a < cfg.max_retries) :
    ∃ pre rest, (rm_fetch_iter cfg retryOn resp u (fuel + 2) a).1 =
      pre ++ FetchEvent.retryAfterSleep (min q cfg.max_delay) ::
        FetchEvent.backoffSleep (calculate_backoff cfg (u (a + 1)) (a + 1))
        :: rest := by
  obtain ⟨rest1, hr1⟩ :=
    rm_iter_head_backoff cfg retryOn resp u fuel (a + 1) (by omega)
  refine ⟨(if 0 < a then
      [.backoffSleep (calculate_backoff cfg (u a) a)] else []) ++
      [.request a], rest1, ?_⟩
  show (rm_fetch_iter cfg retryOn resp u (fuel + 1 + 1) a).1 = _
  unfold rm_fetch_iter
  simp only [hs, get_retry_after, if_true]
  rw [if_pos (⟨h429, hlt⟩ : (429 : ℕ) ∈ retryOn ∧ a < cfg.max_retries)]
  rw [if_pos hq]
  simp only [hr1]

/-- Witness for the amended C5 at the concrete configuration. -/
theorem retry_after_amended_witness :
    ∃ pre rest, (rm_fetch_iter cexCfg defaultRetryOn cex5Resp (fun _ => 0) 2 0).1 =
      pre ++ FetchEvent.retryAfterSleep (min 5 cexCfg.max_delay) ::
        FetchEvent.backoffSleep (calculate_backoff cexCfg 0 1) :: rest :=
  retry_after_amended cexCfg defaultRetryOn cex5Resp (fun _ => 0) 0 0 5
    (by rfl) (by norm_num) (by decide) (by decide)

/-- C10: whenever full track classification succeeds on a URL, the loose
domain pre-filter of the message handler accepts it too — both strip the
input and read the same parsed netloc, and success requires the
`music.yandex.` prefix the pre-filter tests. -/
theorem two_tier_gate_spec (url : String) (ids : String × String)
    (h : validate_yandex_music_url url = .ok ids) :
    is_yandex_music_url url = true := by
  simp only [validate_yandex_music_url] at h
  repeat' first
    | exact Except.noConfusion h
    | split at h
  all_goals
    cases hn : pyUrlsplitNetloc (pyStrip url) with
    | none => simp_all
    | some n =>
      simp only [is_yandex_music_url, hn]
      simp_all

/-- Witness for C10 at a concrete track URL. -/
theorem two_tier_gate_spec_witness :
    is_yandex_music_url "https://music.yandex.ru/album/12345/track/67890"
      = true :=
  two_tier_gate_spec "https://music.yandex.ru/album/12345/track/67890"
    ("12345", "67890") (by rfl)

/-! ### Matcher evaluation and inversion lemmas for the URL patterns -/

/-- A literal consumes itself. -/
theorem lit_append (p r : List Char) : lit p (p ++ r) = some r := by
  unfold lit
  rw [if_pos (List.isPrefixOf_iff_prefix.mpr (List.prefix_append p r))]
  rw [List.drop_left]

/-- What a successful literal consumption means. -/
theorem lit_inv (p l r : List Char) (h : lit p l = some r) : l = p ++ r := by
  unfold lit at h
  split at h
  · next hpre =>
    obtain ⟨s, hs⟩ := List.isPrefixOf_iff_prefix.mp hpre
    subst hs
    simp only [List.drop_left, Option.some.injEq] at h
    rw [h]
  · exact Option.noConfusion h

/-- The head of what `dropWhile` leaves fails the predicate. -/
theorem dropWhile_head_false {α : Type} (p : α → Bool) (l : List α) :
    ∀ c, (l.dropWhile p).head? = some c → p c = false := by
  induction l with
  | nil => intro c hc; simp [List.dropWhile] at hc
  | cons a rest ih =>
    intro c hc
    by_cases hpa : p a
    · rw [List.dropWhile_cons_of_pos hpa] at hc
      exact ih c hc
    · rw [List.dropWhile_cons_of_neg hpa] at hc
      simp only [List.head?_cons, Option.some.injEq] at hc
      subst hc
      exact Bool.eq_false_iff.mpr hpa

/-- `takeWhile`/`dropWhile` on a satisfying run followed by a failing
head. -/
theorem span_append {α : Type} (p : α → Bool) (d r : List α)
    (hall : d.all p = true) (hr : ∀ c, r.head? = some c → p c = false) :
    (d ++ r).takeWhile p = d ∧ (d ++ r).dropWhile p = r := by
  induction d with
  | nil =>
    simp only [List.nil_append]
    cases r with
    | nil => simp [List.takeWhile, List.dropWhile]
    | cons c rest =>
      have := hr c (by simp)
      simp [List.takeWhile_cons, List.dropWhile_cons, this]
  | cons a d2 ih =>
    simp only [List.all_cons, Bool.and_eq_true] at hall
    have hrec := ih hall.2
    simp [List.takeWhile_cons, List.dropWhile_cons, hall.1, hrec.1, hrec.2]

/-- `\\d+` consumes exactly a non-empty digit run when a non-digit (or
the end) follows. -/
theorem digits1_append (d r : List Char) (hne : d ≠ [])
    (hall : d.all Char.isDigit = true)
    (hr : ∀ c, r.head? = some c → c.isDigit = false) :
    digits1 (d ++ r) = some (d, r) := by
  obtain ⟨ht, hd⟩ := span_append Char.isDigit d r hall hr
  unfold digits1
  simp only [ht, hd]
  rw [if_neg (by simpa [List.isEmpty_iff] using hne)]

/-- What a successful `\\d+` match means. -/
theorem digits1_inv (l d r : List Char) (h : digits1 l = some (d, r)) :
    l = d ++ r ∧ d ≠ [] ∧ d.all Char.isDigit = true ∧
    (∀ c, r.head? = some c → c.isDigit = false) := by
  simp only [digits1] at h
  split at h
  · exact Option.noConfusion h
  · next hne =>
    simp only [Option.some.injEq, Prod.mk.injEq] at h
    obtain ⟨hd, hr⟩ := h
    subst hd; subst hr
    refine ⟨(List.takeWhile_append_dropWhile ..).symm, ?_, ?_, ?_⟩
    · simpa [List.isEmpty_iff] using hne
    · exact List.all_eq_true.mpr (fun c hc => List.mem_takeWhile_imp hc)
    · exact dropWhile_head_false Char.isDigit l

/-- The tld alternation consumes a listed tld. -/
theorem matchTld_append (tld : String)
    (htld : tld = "ru" ∨ tld = "com" ∨ tld = "by" ∨ tld = "kz" ∨ tld = "ua")
    (r : List Char) : matchTld (tld.data ++ r) = some r := by
  rcases htld with h | h | h | h | h <;> subst h
  · unfold matchTld
    rw [lit_append]
  · unfold matchTld
    rw [show lit "ru".data ("com".data ++ r) = none from rfl, lit_append]
  · unfold matchTld
    rw [show lit "ru".data ("by".data ++ r) = none from rfl,
      show lit "com".data ("by".data ++ r) = none from rfl, lit_append]
  · unfold matchTld
    rw [show lit "ru".data ("kz".data ++ r) = none from rfl,
      show lit "com".data ("kz".data ++ r) = none from rfl,
      show lit "by".data ("kz".data ++ r) = none from rfl, lit_append]
  · unfold matchTld
    rw [show lit "ru".data ("ua".data ++ r) = none from rfl,
      show lit "com".data ("ua".data ++ r) = none from rfl,
      show lit "by".data ("ua".data ++ r) = none from rfl,
      show lit "kz".data ("ua".data ++ r) = none from rfl, lit_append]

/-- Scheme-host matching after an `http` prefix. -/
theorem msh_http (tld : String)
    (htld : tld = "ru" ∨ tld = "com" ∨ tld = "by" ∨ tld = "kz" ∨ tld = "ua")
    (r : List Char) :
    matchSchemeHost ("http://music.yandex.".data ++ (tld.data ++ r)) = some r := by
  rw [matchSchemeHost, lit_append]
  show matchTld (tld.data ++ r) = some r
  exact matchTld_append tld htld r

/-- Scheme-host matching after an `https` prefix. -/
theorem msh_https (tld : String)
    (htld : tld = "ru" ∨ tld = "com" ∨ tld = "by" ∨ tld = "kz" ∨ tld = "ua")
    (r : List Char) :
    matchSchemeHost ("https://music.yandex.".data ++ (tld.data ++ r)) = some r := by
  rw [matchSchemeHost,
    show lit "http://music.yandex.".data
      ("https://music.yandex.".data ++ (tld.data ++ r)) = none from rfl,
    lit_append]
  show matchTld (tld.data ++ r) = some r
  exact matchTld_append tld htld r

/-- Scheme-host prefixes consume themselves. -/
theorem matchSchemeHost_append (p r : List Char) (hp : schemeHostPre p) :
    matchSchemeHost (p ++ r) = some r := by
  obtain ⟨s, tld, hs, htld, hpe⟩ := hp
  subst hpe
  rcases hs with hs | hs <;> subst hs
  · exact msh_http tld htld r
  · exact msh_https tld htld r

/-- What a successful tld match means. -/
theorem matchTld_inv (l r : List Char) (h : matchTld l = some r) :
    ∃ tld : String,
      (tld = "ru" ∨ tld = "com" ∨ tld = "by" ∨ tld = "kz" ∨ tld = "ua") ∧
      l = tld.data ++ r := by
  unfold matchTld at h
  cases h1 : lit "ru".data l with
  | some r1 =>
    simp only [h1, Option.some.injEq] at h
    subst h
    exact ⟨"ru", by simp, lit_inv _ _ _ h1⟩
  | none =>
    simp only [h1] at h
    cases h2 : lit "com".data l with
    | some r1 =>
      simp only [h2, Option.some.injEq] at h
      subst h
      exact ⟨"com", by simp, lit_inv _ _ _ h2⟩
    | none =>
      simp only [h2] at h
      cases h3 : lit "by".data l with
      | some r1 =>
        simp only [h3, Option.some.injEq] at h
        subst h
        exact ⟨"by", by simp, lit_inv _ _ _ h3⟩
      | none =>
        simp only [h3] at h
        cases h4 : lit "kz".data l with
        | some r1 =>
          simp only [h4, Option.some.injEq] at h
          subst h
          exact ⟨"kz", by simp, lit_inv _ _ _ h4⟩
        | none =>
          simp only [h4] at h
          exact ⟨"ua", by simp, lit_inv _ _ _ h⟩

/-- What a successful scheme-host match means. -/
theorem matchSchemeHost_inv (l r : List Char) (h : matchSchemeHost l = some r) :
    ∃ p, schemeHostPre p ∧ l = p ++ r := by
  unfold matchSchemeHost at h
  cases h1 : lit "http://music.yandex.".data l with
  | some r1 =>
    simp only [h1] at h
    obtain ⟨tld, htld, hr1⟩ := matchTld_inv r1 r h
    refine ⟨"http://".data ++ "music.yandex.".data ++ tld.data,
      ⟨"http://", tld, Or.inl rfl, htld, rfl⟩, ?_⟩
    rw [lit_inv _ _ _ h1, hr1]
    rfl
  | none =>
    simp only [h1] at h
    cases h2 : lit "https://music.yandex.".data l with
    | some r1 =>
      simp only [h2] at h
      obtain ⟨tld, htld, hr1⟩ := matchTld_inv r1 r h
      refine ⟨"https://".data ++ "music.yandex.".data ++ tld.data,
        ⟨"https://", tld, Or.inr rfl, htld, rfl⟩, ?_⟩
      rw [lit_inv _ _ _ h2, hr1]
      rfl
    | none =>
      simp only [h2] at h
      exact Option.noConfusion h

/-- The track pattern matches a well-shaped URL body and captures its
two id substrings. -/
theorem trackMatchCore_of_decomp (p da dt r : List Char) (hp : schemeHostPre p)
    (hda : da ≠ []) (hda2 : da.all Char.isDigit = true)
    (hdt : dt ≠ []) (hdt2 : dt.all Char.isDigit = true)
    (hr : ∀ c, r.head? = some c → c.isDigit = false) :
    trackMatchCore
        (p ++ ("/album/".data ++ (da ++ ("/track/".data ++ (dt ++ r))))) =
      some (da, dt, r) := by
  have hslash : ∀ (x : List Char) (c : Char),
      ("/track/".data ++ x).head? = some c → c.isDigit = false := by
    intro x c hc
    rw [show ("/track/".data ++ x).head? = some '/' from rfl] at hc
    cases hc
    decide
  have h1 := matchSchemeHost_append p
    ("/album/".data ++ (da ++ ("/track/".data ++ (dt ++ r)))) hp
  have h2 := lit_append "/album/".data (da ++ ("/track/".data ++ (dt ++ r)))
  have h3 := digits1_append da ("/track/".data ++ (dt ++ r)) hda hda2 (hslash _)
  have h4 := lit_append "/track/".data (dt ++ r)
  have h5 := digits1_append dt r hdt hdt2 hr
  simp only [trackMatchCore, h1, h2, h3, h4, h5]

/-- What a successful track-pattern body match means. -/
theorem trackMatchCore_inv (l da dt r : List Char)
    (h : trackMatchCore l = some (da, dt, r)) :
    ∃ p, schemeHostPre p ∧
      l = p ++ ("/album/".data ++ (da ++ ("/track/".data ++ (dt ++ r)))) ∧
      da ≠ [] ∧ da.all Char.isDigit = true ∧
      dt ≠ [] ∧ dt.all Char.isDigit = true ∧
      (∀ c, r.head? = some c → c.isDigit = false) := by
  unfold trackMatchCore at h
  cases h1 : matchSchemeHost l with
  | none => simp only [h1] at h; exact Option.noConfusion h
  | some r1 =>
    simp only [h1] at h
    cases h2 : lit "/album/".data r1 with
    | none => simp only [h2] at h; exact Option.noConfusion h
    | some r2 =>
      simp only [h2] at h
      cases h3 : digits1 r2 with
      | none => simp only [h3] at h; exact Option.noConfusion h
      | some ar =>
        obtain ⟨a0, r3⟩ := ar
        simp only [h3] at h
        cases h4 : lit "/track/".data r3 with
        | none => simp only [h4] at h; exact Option.noConfusion h
        | some r4 =>
          simp only [h4] at h
          cases h5 : digits1 r4 with
          | none => simp only [h5] at h; exact Option.noConfusion h
          | some tr =>
            obtain ⟨t0, r5⟩ := tr
            simp only [h5, Option.some.injEq, Prod.mk.injEq] at h
            obtain ⟨ha0, ht0, hr5⟩ := h
            subst ha0; subst ht0; subst hr5
            obtain ⟨p, hp, hl⟩ := matchSchemeHost_inv l r1 h1
            obtain ⟨hr2, hda, hda2, hh3⟩ := digits1_inv r2 a0 r3 h3
            obtain ⟨hr4, hdt, hdt2, hh5⟩ := digits1_inv r4 t0 r5 h5
            refine ⟨p, hp, ?_, hda, hda2, hdt, hdt2, hh5⟩
            rw [hl, lit_inv _ _ _ h2, hr2, lit_inv _ _ _ h4, hr4]

/-- Dropping from the front removes nothing when the head already fails
the predicate. -/
theorem dropWhile_nop_of_head {α : Type} (p : α → Bool) (l : List α) (c : α)
    (hc : l.head? = some c) (hpc : p c = false) : l.dropWhile p = l := by
  cases l with
  | nil => simp at hc
  | cons a rest =>
    simp only [List.head?_cons, Option.some.injEq] at hc
    subst hc
    simp [List.dropWhile_cons, hpc]

/-- Trailing-whitespace stripping leaves intact a left part whose last
character is not whitespace. -/
theorem stripTrailing_append (l1 l2 : List Char) (c : Char)
    (hc : l1.getLast? = some c) (hcw : pyIsSpace c = false) :
    ((l1 ++ l2).reverse.dropWhile pyIsSpace).reverse =
      l1 ++ (l2.reverse.dropWhile pyIsSpace).reverse := by
  rw [List.reverse_append, List.dropWhile_append]
  by_cases he : (l2.reverse.dropWhile pyIsSpace).isEmpty
  · rw [if_pos he]
    have h0 : l2.reverse.dropWhile pyIsSpace = [] := by
      simpa [List.isEmpty_iff] using he
    have h1 : l1.reverse.dropWhile pyIsSpace = l1.reverse := by
      apply dropWhile_nop_of_head pyIsSpace l1.reverse c _ hcw
      rw [List.head?_reverse]; exact hc
    rw [h1, List.reverse_reverse, h0]
    simp
  · rw [if_neg he, List.reverse_append, List.reverse_reverse]

/-- ASCII digits are not Python whitespace. -/
theorem isDigit_not_pySpace (c : Char) (h : c.isDigit = true) :
    pyIsSpace c = false := by
  by_contra hcon
  simp at hcon
  have hmem : c ∈ pySpaceChars := by simpa [pyIsSpace] using hcon
  have hall : pySpaceChars.all (fun d => !d.isDigit) = true := by decide
  have hd := List.all_eq_true.mp hall c hmem
  simp [h] at hd

/-- `restNoNL` checks exactly that no character before the last is a
newline. -/
theorem restNoNL_eq (l : List Char) :
    restNoNL l = l.dropLast.all (fun c => !(c == '\n')) := by
  induction l with
  | nil => rfl
  | cons c rest ih =>
    cases rest with
    | nil =>
      by_cases hc : c = '\n'
      · subst hc; rfl
      · simp [restNoNL, hc]
    | cons c2 rest2 =>
      have h1 : restNoNL (c :: c2 :: rest2) =
          (decide (c ≠ '\n') && restNoNL (c2 :: rest2)) := by
        by_cases hc : c = '\n'
        · subst hc; rfl
        · simp only [restNoNL]
      have h2 : (c :: c2 :: rest2).dropLast = c :: (c2 :: rest2).dropLast := rfl
      rw [h1, ih, h2, List.all_cons]
      by_cases hc : c = '\n' <;> simp [hc]

/-- Stripping trailing whitespace preserves the no-interior-newline
property. -/
theorem restNoNL_strip (q : List Char) (h : restNoNL q = true) :
    restNoNL ((q.reverse.dropWhile pyIsSpace).reverse) = true := by
  rw [restNoNL_eq] at h ⊢
  rw [List.all_eq_true] at h ⊢
  intro c hc
  obtain ⟨y, hy⟩ := List.dropWhile_suffix (p := pyIsSpace) (l := q.reverse)
  have hq : q = (q.reverse.dropWhile pyIsSpace).reverse ++ y.reverse := by
    have h2 := congrArg List.reverse hy
    rw [List.reverse_append, List.reverse_reverse] at h2
    exact h2.symm
  apply h
  rw [hq]
  have hcX : c ∈ (q.reverse.dropWhile pyIsSpace).reverse :=
    List.dropLast_subset _ hc
  by_cases hy0 : y.reverse = []
  · rw [hy0, List.append_nil]
    exact hc
  · rw [List.dropLast_append_of_ne_nil _ hy0]
    exact List.mem_append_left _ hcX

/-- What passing the query-or-end check means. -/
theorem queryEndOk_inv (r : List Char) (h : queryEndOk r = true) :
    r = [] ∨ r = ['\n'] ∨ ∃ q, r = '?' :: q ∧ restNoNL q = true := by
  cases r with
  | nil => exact Or.inl rfl
  | cons c0 rest =>
    by_cases h0 : c0 = '?'
    · subst h0
      exact Or.inr (Or.inr ⟨rest, rfl, h⟩)
    · cases rest with
      | nil =>
        by_cases h1 : c0 = '\n'
        · subst h1; exact Or.inr (Or.inl rfl)
        · exfalso
          have hf : queryEndOk [c0] = false := by simp [queryEndOk, h0, h1]
          rw [hf] at h; exact Bool.noConfusion h
      | cons c1 rest1 =>
        exfalso
        have hf : queryEndOk (c0 :: c1 :: rest1) = false := by
          simp [queryEndOk, h0]
        rw [hf] at h; exact Bool.noConfusion h

/-- Stripping distributes over a leading question mark. -/
theorem stripT_cons_q (rest : List Char) :
    (('?' :: rest).reverse.dropWhile pyIsSpace).reverse =
      '?' :: ((rest.reverse.dropWhile pyIsSpace).reverse) := by
  have hx := stripTrailing_append ['?'] rest '?' rfl (by decide)
  simpa using hx

/-- `str.strip()` preserves a track-pattern match: the pattern anchors
at the start, forbids interior newlines, and the matched head and tail
characters are never whitespace. -/
theorem trackMatch_strip (l : List Char) (a t : String)
    (h : trackMatch l = some (a, t)) :
    trackMatch (pyStripList l) = some (a, t) := by
  unfold trackMatch at h
  cases hc : trackMatchCore l with
  | none => rw [hc] at h; exact Option.noConfusion h
  | some x =>
    obtain ⟨da, dt, r⟩ := x
    simp only [hc] at h
    cases hq : queryEndOk r with
    | false => rw [hq] at h; simp at h
    | true =>
      rw [hq, if_pos rfl] at h
      simp only [Option.some.injEq, Prod.mk.injEq] at h
      obtain ⟨ha, ht⟩ := h
      subst ha; subst ht
      obtain ⟨p, hp, hl, hda, hda2, hdt, hdt2, hhr⟩ :=
        trackMatchCore_inv l da dt r hc
      have hhead : l.head? = some 'h' := by
        obtain ⟨s, tld, hs, htld, hpe⟩ := hp
        subst hpe
        rw [hl]
        rcases hs with rfl | rfl <;> rfl
      have hstrip1 : l.dropWhile pyIsSpace = l :=
        dropWhile_nop_of_head pyIsSpace l 'h' hhead (by decide)
      have hdig : (dt.getLast hdt).isDigit = true :=
        List.all_eq_true.mp hdt2 _ (List.getLast_mem hdt)
      have hlast : (p ++ "/album/".data ++ da ++ "/track/".data ++ dt).getLast? =
          some (dt.getLast hdt) := by
        rw [List.getLast?_append_of_ne_nil _ hdt]
        exact List.getLast?_eq_getLast ..
      have hl2 : l = (p ++ "/album/".data ++ da ++ "/track/".data ++ dt) ++ r := by
        rw [hl]; simp [List.append_assoc]
      have hsplit := stripTrailing_append
        (p ++ "/album/".data ++ da ++ "/track/".data ++ dt) r
        (dt.getLast hdt) hlast (isDigit_not_pySpace _ hdig)
      have hPS : pyStripList l =
          (p ++ "/album/".data ++ da ++ "/track/".data ++ dt) ++
            ((r.reverse.dropWhile pyIsSpace).reverse) := by
        simp only [pyStripList]
        rw [hstrip1, hl2]
        exact hsplit
      rcases queryEndOk_inv r hq with hr0 | hr0 | ⟨q0, hr0, hq0⟩
      · subst hr0
        rw [show (([] : List Char).reverse.dropWhile pyIsSpace).reverse = []
          from rfl] at hPS
        have hPS2 : pyStripList l =
            p ++ ("/album/".data ++ (da ++ ("/track/".data ++ (dt ++ [])))) := by
          rw [hPS]; simp [List.append_assoc]
        have hcore2 : trackMatchCore (pyStripList l) = some (da, dt, []) := by
          rw [hPS2]
          exact trackMatchCore_of_decomp p da dt [] hp hda hda2 hdt hdt2
            (by intro c hcx; exact Option.noConfusion hcx)
        simp [trackMatch, hcore2, queryEndOk]
      · subst hr0
        rw [show ((['\n'] : List Char).reverse.dropWhile pyIsSpace).reverse = []
          from rfl] at hPS
        have hPS2 : pyStripList l =
            p ++ ("/album/".data ++ (da ++ ("/track/".data ++ (dt ++ [])))) := by
          rw [hPS]; simp [List.append_assoc]
        have hcore2 : trackMatchCore (pyStripList l) = some (da, dt, []) := by
          rw [hPS2]
          exact trackMatchCore_of_decomp p da dt [] hp hda hda2 hdt hdt2
            (by intro c hcx; exact Option.noConfusion hcx)
        simp [trackMatch, hcore2, queryEndOk]
      · subst hr0
        rw [stripT_cons_q q0] at hPS
        have hPS2 : pyStripList l =
            p ++ ("/album/".data ++ (da ++ ("/track/".data ++
              (dt ++ ('?' :: (q0.reverse.dropWhile pyIsSpace).reverse))))) := by
          rw [hPS]; simp [List.append_assoc]
        have hcore2 : trackMatchCore (pyStripList l) =
            some (da, dt, '?' :: (q0.reverse.dropWhile pyIsSpace).reverse) := by
          rw [hPS2]
          exact trackMatchCore_of_decomp p da dt _ hp hda hda2 hdt hdt2
            (by intro c hcx
                simp only [List.head?_cons, Option.some.injEq] at hcx
                subst hcx; decide)
        have hqk : queryEndOk ('?' :: (q0.reverse.dropWhile pyIsSpace).reverse) =
            true := by
          rw [show queryEndOk ('?' :: (q0.reverse.dropWhile pyIsSpace).reverse) =
            restNoNL ((q0.reverse.dropWhile pyIsSpace).reverse) from rfl]
          exact restNoNL_strip q0 hq0
        simp [trackMatch, hcore2, hqk]

/-- A stripped track URL passes the scheme pre-check. -/
theorem cl_scheme (s tld : String) (hs : s = "http://" ∨ s = "https://")
    (x : List Char) :
    (pyStartsWith ⟨(s.data ++ "music.yandex.".data ++ tld.data) ++ ('/' :: x)⟩
        "http://" ||
     pyStartsWith ⟨(s.data ++ "music.yandex.".data ++ tld.data) ++ ('/' :: x)⟩
        "https://") = true := by
  rcases hs with rfl | rfl <;> rfl

/-- `urlparse` on a stripped track URL yields the `music.yandex.<tld>`
netloc. -/
theorem cl_netloc (s tld : String) (hs : s = "http://" ∨ s = "https://")
    (htld : tld = "ru" ∨ tld = "com" ∨ tld = "by" ∨ tld = "kz" ∨ tld = "ua")
    (x : List Char) :
    pyUrlsplitNetloc ⟨(s.data ++ "music.yandex.".data ++ tld.data) ++ ('/' :: x)⟩ =
      some ⟨"music.yandex.".data ++ tld.data⟩ := by
  rcases hs with rfl | rfl <;> rcases htld with rfl | rfl | rfl | rfl | rfl <;> rfl

/-- The parsed netloc is nonempty. -/
theorem cl_netloc_ne (tld : String)
    (htld : tld = "ru" ∨ tld = "com" ∨ tld = "by" ∨ tld = "kz" ∨ tld = "ua") :
    (⟨"music.yandex.".data ++ tld.data⟩ : String) ≠ "" := by
  rcases htld with rfl | rfl | rfl | rfl | rfl <;> decide

/-- The parsed netloc starts with the Yandex Music host prefix. -/
theorem cl_netloc_pre (tld : String)
    (htld : tld = "ru" ∨ tld = "com" ∨ tld = "by" ∨ tld = "kz" ∨ tld = "ua") :
    pyStartsWith ⟨"music.yandex.".data ++ tld.data⟩ "music.yandex." = true := by
  rcases htld with rfl | rfl | rfl | rfl | rfl <;> rfl

/-- A track-shaped URL does not match the album page pattern: after the
album id the text continues with `/track/`, not an optional slash and
end. -/
theorem cl_album_false (s tld : String) (hs : s = "http://" ∨ s = "https://")
    (htld : tld = "ru" ∨ tld = "com" ∨ tld = "by" ∨ tld = "kz" ∨ tld = "ua")
    (da dt r : List Char) (hda : da ≠ []) (hda2 : da.all Char.isDigit = true) :
    albumMatch ((s.data ++ "music.yandex.".data ++ tld.data) ++
      ('/' :: ("album/".data ++ (da ++ ("/track/".data ++ (dt ++ r)))))) = false := by
  have hp : schemeHostPre (s.data ++ "music.yandex.".data ++ tld.data) :=
    ⟨s, tld, hs, htld, rfl⟩
  rw [show ('/' :: ("album/".data ++ (da ++ ("/track/".data ++ (dt ++ r))))) =
    "/album/".data ++ (da ++ ("/track/".data ++ (dt ++ r))) from rfl]
  have h1 := matchSchemeHost_append (s.data ++ "music.yandex.".data ++ tld.data)
    ("/album/".data ++ (da ++ ("/track/".data ++ (dt ++ r)))) hp
  have h2 := lit_append "/album/".data (da ++ ("/track/".data ++ (dt ++ r)))
  have h3 := digits1_append da ("/track/".data ++ (dt ++ r)) hda hda2 (by
    intro c hcx
    rw [show ("/track/".data ++ (dt ++ r)).head? = some '/' from rfl] at hcx
    cases hcx; decide)
  simp only [albumMatch, h1, h2, h3]
  rw [show ("/track/".data ++ (dt ++ r)) =
    '/' :: 't' :: ("rack/".data ++ (dt ++ r)) from rfl]
  simp [show ('t' : Char) ≠ '\n' from by decide]

/-- A track-shaped URL does not match the artist page pattern. -/
theorem cl_artist_false (s tld : String) (hs : s = "http://" ∨ s = "https://")
    (htld : tld = "ru" ∨ tld = "com" ∨ tld = "by" ∨ tld = "kz" ∨ tld = "ua")
    (da dt r : List Char) :
    artistMatch ((s.data ++ "music.yandex.".data ++ tld.data) ++
      ('/' :: ("album/".data ++ (da ++ ("/track/".data ++ (dt ++ r)))))) = false := by
  have hp : schemeHostPre (s.data ++ "music.yandex.".data ++ tld.data) :=
    ⟨s, tld, hs, htld, rfl⟩
  rw [show ('/' :: ("album/".data ++ (da ++ ("/track/".data ++ (dt ++ r))))) =
    "/album/".data ++ (da ++ ("/track/".data ++ (dt ++ r))) from rfl]
  have h1 := matchSchemeHost_append (s.data ++ "music.yandex.".data ++ tld.data)
    ("/album/".data ++ (da ++ ("/track/".data ++ (dt ++ r)))) hp
  simp only [artistMatch, h1,
    show lit "/artist/".data
      ("/album/".data ++ (da ++ ("/track/".data ++ (dt ++ r)))) = none from rfl]

/-- A track-shaped URL does not match the playlist page pattern. -/
theorem cl_playlist_false (s tld : String) (hs : s = "http://" ∨ s = "https://")
    (htld : tld = "ru" ∨ tld = "com" ∨ tld = "by" ∨ tld = "kz" ∨ tld = "ua")
    (da dt r : List Char) :
    playlistMatch ((s.data ++ "music.yandex.".data ++ tld.data) ++
      ('/' :: ("album/".data ++ (da ++ ("/track/".data ++ (dt ++ r)))))) = false := by
  have hp : schemeHostPre (s.data ++ "music.yandex.".data ++ tld.data) :=
    ⟨s, tld, hs, htld, rfl⟩
  rw [show ('/' :: ("album/".data ++ (da ++ ("/track/".data ++ (dt ++ r))))) =
    "/album/".data ++ (da ++ ("/track/".data ++ (dt ++ r))) from rfl]
  have h1 := matchSchemeHost_append (s.data ++ "music.yandex.".data ++ tld.data)
    ("/album/".data ++ (da ++ ("/track/".data ++ (dt ++ r)))) hp
  simp only [playlistMatch, h1,
    show lit "/users/".data
      ("/album/".data ++ (da ++ ("/track/".data ++ (dt ++ r)))) = none from rfl]

/-- The track pattern accepts the canonical decomposition and captures
the ids. -/
theorem cl_track (s tld : String) (hs : s = "http://" ∨ s = "https://")
    (htld : tld = "ru" ∨ tld = "com" ∨ tld = "by" ∨ tld = "kz" ∨ tld = "ua")
    (da dt r : List Char)
    (hda : da ≠ []) (hda2 : da.all Char.isDigit = true)
    (hdt : dt ≠ []) (hdt2 : dt.all Char.isDigit = true)
    (hq : queryEndOk r = true)
    (hhr : ∀ c, r.head? = some c → c.isDigit = false) :
    trackMatch ((s.data ++ "music.yandex.".data ++ tld.data) ++
        ('/' :: ("album/".data ++ (da ++ ("/track/".data ++ (dt ++ r)))))) =
      some (⟨da⟩, ⟨dt⟩) := by
  have hp : schemeHostPre (s.data ++ "music.yandex.".data ++ tld.data) :=
    ⟨s, tld, hs, htld, rfl⟩
  rw [show ('/' :: ("album/".data ++ (da ++ ("/track/".data ++ (dt ++ r))))) =
    "/album/".data ++ (da ++ ("/track/".data ++ (dt ++ r))) from rfl]
  simp only [trackMatch,
    trackMatchCore_of_decomp _ da dt r hp hda hda2 hdt hdt2 hhr, hq]
  simp

/-- Evaluation of the validator on a URL whose stripped form decomposes
as a track URL. -/
theorem validate_eval (url : String) (s tld : String)
    (hs : s = "http://" ∨ s = "https://")
    (htld : tld = "ru" ∨ tld = "com" ∨ tld = "by" ∨ tld = "kz" ∨ tld = "ua")
    (da dt r : List Char)
    (hda : da ≠ []) (hda2 : da.all Char.isDigit = true)
    (hdt : dt ≠ []) (hdt2 : dt.all Char.isDigit = true)
    (hq : queryEndOk r = true)
    (hhr : ∀ c, r.head? = some c → c.isDigit = false)
    (hl : pyStripList url.data =
      (s.data ++ "music.yandex.".data ++ tld.data) ++
        ("/album/".data ++ (da ++ ("/track/".data ++ (dt ++ r))))) :
    validate_yandex_music_url url = .ok (⟨da⟩, ⟨dt⟩) := by
  have hsu : pyStrip url =
      ⟨(s.data ++ "music.yandex.".data ++ tld.data) ++
        ('/' :: ("album/".data ++ (da ++ ("/track/".data ++ (dt ++ r)))))⟩ := by
    show (⟨pyStripList url.data⟩ : String) = _
    rw [hl]
    rfl
  have hdd : (⟨(s.data ++ "music.yandex.".data ++ tld.data) ++
      ('/' :: ("album/".data ++ (da ++ ("/track/".data ++ (dt ++ r)))))⟩ :
        String).data =
      (s.data ++ "music.yandex.".data ++ tld.data) ++
        ('/' :: ("album/".data ++ (da ++ ("/track/".data ++ (dt ++ r))))) := rfl
  have hG1 := cl_scheme s tld hs
    ("album/".data ++ (da ++ ("/track/".data ++ (dt ++ r))))
  have hG2 := cl_netloc s tld hs htld
    ("album/".data ++ (da ++ ("/track/".data ++ (dt ++ r))))
  have hG3 := cl_netloc_ne tld htld
  have hG4 := cl_netloc_pre tld htld
  have hG5 := cl_album_false s tld hs htld da dt r hda hda2
  have hG6 := cl_artist_false s tld hs htld da dt r
  have hG7 := cl_playlist_false s tld hs htld da dt r
  have hG8 := cl_track s tld hs htld da dt r hda hda2 hdt hdt2 hq hhr
  simp only [validate_yandex_music_url, hsu, hdd]
  simp only [hG1, hG2, hG3, hG4, hG5, hG6, hG7, hG8]
  simp

/-- C3: every URL whose text matches the accepted track pattern
(`http`/`https` scheme, host `music.yandex.<tld>`,
path `/album/<digits>/track/<digits>`, optional query) is accepted by
`validate_yandex_music_url`, which returns exactly the two digit
substrings of the path, in order `(albumId, trackId)`, raising no
validation error. -/
theorem track_url_classification_spec (url : String) (a t : String)
    (h : trackMatch url.data = some (a, t)) :
    validate_yandex_music_url url = .ok (a, t) := by
  have hm := trackMatch_strip url.data a t h
  unfold trackMatch at hm
  cases hc : trackMatchCore (pyStripList url.data) with
  | none => rw [hc] at hm; exact Option.noConfusion hm
  | some x =>
    obtain ⟨da, dt, r⟩ := x
    simp only [hc] at hm
    cases hq : queryEndOk r with
    | false => rw [hq] at hm; simp at hm
    | true =>
      rw [hq, if_pos rfl] at hm
      simp only [Option.some.injEq, Prod.mk.injEq] at hm
      obtain ⟨ha, ht⟩ := hm
      subst ha; subst ht
      obtain ⟨p, hp, hl, hda, hda2, hdt, hdt2, hhr⟩ :=
        trackMatchCore_inv (pyStripList url.data) da dt r hc
      obtain ⟨s, tld, hs, htld, hpe⟩ := hp
      subst hpe
      exact validate_eval url s tld hs htld da dt r hda hda2 hdt hdt2 hq hhr hl

/-- C3 witness: the canonical example URL matches the pattern and the
validator returns its two ids. -/
theorem track_url_classification_spec_witness :
    trackMatch "https://music.yandex.ru/album/12345/track/67890".data =
      some ("12345", "67890") ∧
    validate_yandex_music_url "https://music.yandex.ru/album/12345/track/67890" =
      .ok ("12345", "67890") :=
  ⟨rfl, track_url_classification_spec _ "12345" "67890" rfl⟩
